import Mathlib

/-!
Verification of the `ble` repository's HCI packet/event decoding core.

The Rust sources are shallowly embedded: byte buffers become `List Nat`
(each element a byte value `< 256` where that matters), the bounds-checked
cursor `utils::Reader` becomes a structure with explicit state passing
(each operation returns its result paired with the successor reader state,
mirroring `&mut self`), fallible operations return `Option`/`Except`, and
Rust `usize` subtraction is embedded with release-profile wrapping
semantics (`usizeSub`).  Panics that can occur regardless of build profile
(slice indexing `&buf[..len]`) are modelled explicitly with `PanicOr`.
-/

/-- Little-endian byte-list to natural number, as in `uN::from_le_bytes`. -/
def leBytesToNat (l : List Nat) : Nat :=
  l.foldr (fun b acc => b + 256 * acc) 0

/-- Rust `usize` subtraction `a - b` with the wrapping semantics of a
release build (the profile this `no_std` embedded crate ships with):
the result is reduced modulo `2 ^ 64`. -/
def usizeSub (a b : Nat) : Nat :=
  (a + 2 ^ 64 - b) % 2 ^ 64

/-- Rust `u8 as i8` conversion of a byte value. -/
def byteAsI8 (b : Nat) : Int :=
  if b < 128 then (b : Int) else (b : Int) - 256

/-- `utils::slice::as_slice::<u16, u8>` (reinterpret a byte slice as
little-endian 16-bit scalars): group consecutive pairs. -/
def bytesToU16s : List Nat → List Nat
  | b0 :: b1 :: rest => (b0 + 256 * b1) :: bytesToU16s rest
  | _ => []

/-- Grouping for 32-bit reinterpretation. -/
def bytesToU32s : List Nat → List Nat
  | b0 :: b1 :: b2 :: b3 :: rest =>
      leBytesToNat [b0, b1, b2, b3] :: bytesToU32s rest
  | _ => []

/-- Grouping for 64-bit reinterpretation. -/
def bytesToU64s : List Nat → List Nat
  | b0 :: b1 :: b2 :: b3 :: b4 :: b5 :: b6 :: b7 :: rest =>
      leBytesToNat [b0, b1, b2, b3, b4, b5, b6, b7] :: bytesToU64s rest
  | _ => []

/-- Grouping for 128-bit reinterpretation. -/
def bytesToU128s : List Nat → List Nat
  | b0 :: b1 :: b2 :: b3 :: b4 :: b5 :: b6 :: b7 ::
    b8 :: b9 :: b10 :: b11 :: b12 :: b13 :: b14 :: b15 :: rest =>
      leBytesToNat [b0, b1, b2, b3, b4, b5, b6, b7,
                    b8, b9, b10, b11, b12, b13, b14, b15] :: bytesToU128s rest
  | _ => []

/-- `utils::slice::as_u16_slice`: fails unless the byte count is a
multiple of the target width, otherwise reinterprets. -/
def as_u16_slice (s : List Nat) : Option (List Nat) :=
  if s.length % 2 ≠ 0 then none else some (bytesToU16s s)

/-- `utils::slice::as_u32_slice`. -/
def as_u32_slice (s : List Nat) : Option (List Nat) :=
  if s.length % 4 ≠ 0 then none else some (bytesToU32s s)

/-- `utils::slice::as_u64_slice`. -/
def as_u64_slice (s : List Nat) : Option (List Nat) :=
  if s.length % 8 ≠ 0 then none else some (bytesToU64s s)

/-- `utils::slice::as_u128_slice`. -/
def as_u128_slice (s : List Nat) : Option (List Nat) :=
  if s.length % 16 ≠ 0 then none else some (bytesToU128s s)

/-- `utils::reader::ReadError`. -/
inductive ReadError where
  | BufferOverflow
deriving DecidableEq

/-- `utils::reader::Reader`: a borrowed byte buffer plus a read position. -/
structure Reader where
  buf : List Nat
  pos : Nat
deriving DecidableEq

/-- `Reader::new`. -/
def Reader.new (buf : List Nat) : Reader :=
  { buf := buf, pos := 0 }

/-- `Reader::remaining`. -/
def Reader.remaining (r : Reader) : Nat :=
  r.buf.length - r.pos

/-- `Reader::read_u8_slice`: bounds check against `remaining`, then the
borrowed sub-slice `buf[pos..pos+len]` and advance.  The pair's second
component is the successor state of `&mut self` (unchanged on failure). -/
def Reader.read_u8_slice (r : Reader) (len : Nat) : Option (List Nat) × Reader :=
  if r.remaining < len then (none, r)
  else (some ((r.buf.drop r.pos).take len), { r with pos := r.pos + len })

/-- `Reader::read_u8` (via `read_u8_slice` and `from_le_bytes`). -/
def Reader.read_u8 (r : Reader) : Option Nat × Reader :=
  match r.read_u8_slice 1 with
  | (none, r1) => (none, r1)
  | (some s, r1) => (some (leBytesToNat s), r1)

/-- `Reader::read_u16`. -/
def Reader.read_u16 (r : Reader) : Option Nat × Reader :=
  match r.read_u8_slice 2 with
  | (none, r1) => (none, r1)
  | (some s, r1) => (some (leBytesToNat s), r1)

/-- `Reader::read_u32`. -/
def Reader.read_u32 (r : Reader) : Option Nat × Reader :=
  match r.read_u8_slice 4 with
  | (none, r1) => (none, r1)
  | (some s, r1) => (some (leBytesToNat s), r1)

/-- `Reader::read_u64`. -/
def Reader.read_u64 (r : Reader) : Option Nat × Reader :=
  match r.read_u8_slice 8 with
  | (none, r1) => (none, r1)
  | (some s, r1) => (some (leBytesToNat s), r1)

/-- `Reader::read_u128`. -/
def Reader.read_u128 (r : Reader) : Option Nat × Reader :=
  match r.read_u8_slice 16 with
  | (none, r1) => (none, r1)
  | (some s, r1) => (some (leBytesToNat s), r1)

/-- `Reader::read_u16_slice`: bounds check, reinterpret (which may fail
on a width mismatch, before the position is advanced), then advance. -/
def Reader.read_u16_slice (r : Reader) (len : Nat) : Option (List Nat) × Reader :=
  if r.remaining < len then (none, r)
  else
    match as_u16_slice ((r.buf.drop r.pos).take len) with
    | none => (none, r)
    | some s => (some s, { r with pos := r.pos + len })

/-- `Reader::read_u32_slice`. -/
def Reader.read_u32_slice (r : Reader) (len : Nat) : Option (List Nat) × Reader :=
  if r.remaining < len then (none, r)
  else
    match as_u32_slice ((r.buf.drop r.pos).take len) with
    | none => (none, r)
    | some s => (some s, { r with pos := r.pos + len })

/-- `Reader::read_u64_slice`. -/
def Reader.read_u64_slice (r : Reader) (len : Nat) : Option (List Nat) × Reader :=
  if r.remaining < len then (none, r)
  else
    match as_u64_slice ((r.buf.drop r.pos).take len) with
    | none => (none, r)
    | some s => (some s, { r with pos := r.pos + len })

/-- `Reader::read_u128_slice`. -/
def Reader.read_u128_slice (r : Reader) (len : Nat) : Option (List Nat) × Reader :=
  if r.remaining < len then (none, r)
  else
    match as_u128_slice ((r.buf.drop r.pos).take len) with
    | none => (none, r)
    | some s => (some s, { r with pos := r.pos + len })

/-- `Reader::seek`: absolute positioning, rejected past the buffer end. -/
def Reader.seek (r : Reader) (p : Nat) : Except ReadError Unit × Reader :=
  if p > r.buf.length then (Except.error ReadError.BufferOverflow, r)
  else (Except.ok (), { r with pos := p })

/-- `utils::WriteError`. -/
inductive WriteError where
  | BufferOverflow
  | InvalidFormat
deriving DecidableEq

/-- `utils::writer::Writer` (namespaced as `Utils.Writer` because the bare
name collides with Mathlib): a mutably borrowed byte buffer plus a write
position. -/
structure Utils.Writer where
  buf : List Nat
  pos : Nat
deriving DecidableEq

/-- `Writer::new`. -/
def Utils.Writer.new (buf : List Nat) : Utils.Writer :=
  { buf := buf, pos := 0 }

/-- `Writer::write_u8_slice`: the source rejects the write whenever
`pos + slice.len() >= buf.len()`, otherwise copies the slice into
`buf[pos..pos+slice.len()]` and advances.  The pair's second component is
the successor state of `&mut self` (unchanged on failure). -/
def Utils.Writer.write_u8_slice (w : Utils.Writer) (s : List Nat) :
    Except WriteError Unit × Utils.Writer :=
  if w.pos + s.length ≥ w.buf.length then (Except.error WriteError.BufferOverflow, w)
  else (Except.ok (),
    { buf := w.buf.take w.pos ++ s ++ w.buf.drop (w.pos + s.length),
      pos := w.pos + s.length })

/-- Outcome of a Rust computation that may panic (used for the slice
indexing `&buf[..len]` in the packet constructors, which panics whenever
`len > buf.len()` in every build profile). -/
inductive PanicOr (α : Type) where
  | panics
  | ret (a : α)
deriving DecidableEq

/-- `hci::packet::HCIEventPacket`. -/
structure HCIEventPacket where
  evcode : Nat
  len : Nat
  parameters : List Nat
deriving DecidableEq

/-- `HCIEventPacket::new`: stores the fields and the view `&buf[..len]`
(a panic when `len` exceeds the buffer's length). -/
def HCIEventPacket.new (evcode len : Nat) (buf : List Nat) : PanicOr HCIEventPacket :=
  if len ≤ buf.length then PanicOr.ret ⟨evcode, len, buf.take len⟩ else PanicOr.panics

/-- `hci::packet::HCICommandPacket`. -/
structure HCICommandPacket where
  opcode : Nat
  len : Nat
  parameters : List Nat
deriving DecidableEq

/-- `HCICommandPacket::new`: stores the fields and the view `&buf[..len]`. -/
def HCICommandPacket.new (opcode len : Nat) (buf : List Nat) : PanicOr HCICommandPacket :=
  if len ≤ buf.length then PanicOr.ret ⟨opcode, len, buf.take len⟩ else PanicOr.panics

/-- `hci::packet::HCIACLDataPacket`. -/
structure HCIACLDataPacket where
  handle : Nat
  packet_boundary_flag : Nat
  broadcast_flag : Nat
  len : Nat
  data : List Nat
deriving DecidableEq

/-- `HCIACLDataPacket::new`: stores the fields and the view `&buf[..len]`. -/
def HCIACLDataPacket.new (handle packet_boundary_flag broadcast_flag len : Nat)
    (buf : List Nat) : PanicOr HCIACLDataPacket :=
  if len ≤ buf.length then
    PanicOr.ret ⟨handle, packet_boundary_flag, broadcast_flag, len, buf.take len⟩
  else PanicOr.panics

/-- `hci::packet::HCIPacket` (the source spells the last variant `Unkown`). -/
inductive HCIPacket where
  | Command (p : HCICommandPacket)
  | ACLData (p : HCIACLDataPacket)
  | Event (p : HCIEventPacket)
  | Unkown (raw : List Nat)
deriving DecidableEq

/-- `HCIPacket::from_buf`: reads the leading type tag and dispatches.
Read failures abort with `none` (the Rust `?`); the `Unkown` arms also
emit a log diagnostic, a side effect not modelled here.  Constructor
panics propagate as `PanicOr.panics`. -/
def HCIPacket.from_buf (buf : List Nat) : PanicOr (Option HCIPacket) :=
  match (Reader.new buf).read_u8 with
  | (none, _) => PanicOr.ret none
  | (some packet_type, r0) =>
    if packet_type = 0x01 then
      match r0.read_u16 with
      | (none, _) => PanicOr.ret none
      | (some opcode, r1) =>
        match r1.read_u8 with
        | (none, _) => PanicOr.ret none
        | (some len, r2) =>
          match r2.read_u8_slice len with
          | (none, _) => PanicOr.ret none
          | (some data, _) =>
            match HCICommandPacket.new opcode len data with
            | PanicOr.panics => PanicOr.panics
            | PanicOr.ret p => PanicOr.ret (some (HCIPacket.Command p))
    else if packet_type = 0x02 then
      match r0.read_u16 with
      | (none, _) => PanicOr.ret none
      | (some header, r1) =>
        let handle := (header &&& 0b1111111111110000) >>> 4
        let flags := header &&& 0b0000000000001111
        let packet_boundary_flag := (flags &&& 0b00001100) >>> 2
        let broadcast_flag := flags &&& 0b00000011
        match r1.read_u16 with
        | (none, _) => PanicOr.ret none
        | (some len, r2) =>
          match r2.read_u8_slice len with
          | (none, _) => PanicOr.ret none
          | (some data, _) =>
            match HCIACLDataPacket.new handle packet_boundary_flag broadcast_flag len data with
            | PanicOr.panics => PanicOr.panics
            | PanicOr.ret p => PanicOr.ret (some (HCIPacket.ACLData p))
    else if packet_type = 0x03 then
      PanicOr.ret (some (HCIPacket.Unkown buf))
    else if packet_type = 0x04 then
      match r0.read_u8 with
      | (none, _) => PanicOr.ret none
      | (some evcode, r1) =>
        match r1.read_u8 with
        | (none, _) => PanicOr.ret none
        | (some len, r2) =>
          match r2.read_u8_slice len with
          | (none, _) => PanicOr.ret none
          | (some data, _) =>
            match HCIEventPacket.new evcode len data with
            | PanicOr.panics => PanicOr.panics
            | PanicOr.ret p => PanicOr.ret (some (HCIPacket.Event p))
    else if packet_type = 0x05 then
      PanicOr.ret (some (HCIPacket.Unkown buf))
    else
      PanicOr.ret (some (HCIPacket.Unkown buf))

/-- `hci::event::HCIEventCode` (the handled top-level event codes and
their `repr(u8)` discriminants). -/
inductive HCIEventCode where
  | DisconnectionComplete
  | CommandComplete
  | LEMetaEvent
deriving DecidableEq

/-- Modelled from the spec: the `IntoU8` derive macro of the repository's
`macros` crate is not under `src/`; per the spec it is the injective
named-tag-to-byte direction of the conversion helpers, mapping each
variant to the discriminant declared in `event.rs`. -/
def HCIEventCode.toU8 : HCIEventCode → Nat
  | HCIEventCode.DisconnectionComplete => 0x05
  | HCIEventCode.CommandComplete => 0x0E
  | HCIEventCode.LEMetaEvent => 0x3E

/-- Modelled from the spec: the `FromU8` derive macro of the repository's
`macros` crate is not under `src/`; per the spec the byte-to-tag
conversion is a total injective lookup over the declared discriminants
whose unmatched values fall through to an "unrecognized" outcome,
represented here by `none`. -/
def HCIEventCode.fromU8 (v : Nat) : Option HCIEventCode :=
  if v = 0x05 then some HCIEventCode.DisconnectionComplete
  else if v = 0x0E then some HCIEventCode.CommandComplete
  else if v = 0x3E then some HCIEventCode.LEMetaEvent
  else none

/-- `hci::event::SubeventCode` (the LE Meta Event subevent codes named in
`event.rs`). -/
inductive SubeventCode where
  | ConnectionComplete
  | AdvertisingReport
  | ConnectionUpdateComplete
  | ReadRemoteFeaturesPage0Complete
  | LongTermKeyRequest
  | RemoteConnectionParameterRequest
  | DataLengthChange
  | ReadLocalP256PublicKeyComplete
  | GenerateDHKeyComplete
  | EnhancedConnectionCompleteV1
  | EnhancedConnectionCompleteV2
  | DirectedAdvertisingReport
  | PHYUpdateComplete
  | ExtendedAdvertisingReport
  | PeriodicAdvertisingSyncEstablished
  | PeriodicAdvertisingReport
  | PeriodicAdvertisingSyncLost
  | ScanTimeout
  | AdvertisingSetTerminated
  | ScanRequestReceived
  | ChannelSelectionAlgorithm
  | ConnectionlessIQReport
  | ConnectionIQReport
  | CTERequestFailed
  | PeriodicAdvertisingSyncTransferReceivedV1
  | PeriodicAdvertisingSyncTransferReceivedV2
  | CISEstablishedV1
  | CISEstablishedV2
  | CISRequest
  | CreateBIGComplete
  | TerminateBIGComplete
  | BIGSyncEstablished
  | BIGSyncLost
  | RequestPeerSCAComplete
  | PathLossThreshold
  | TransmitPowerReporting
  | BIGInfoAdvertisingReport
  | SubrateChange
  | PeriodicAdvertisingSubeventDataRequest
  | PeriodicAdvertisingResponseReport
  | ReadAllRemoteFeaturesComplete
  | CSReadRemoteSupportedCapabilitiesComplete
  | CSReadRemoteFAETableComplete
  | CSSecurityEnableComplete
  | CSConfigComplete
  | CSProcedureEnableComplete
  | CSSubeventResult
  | CSSubeventResultContinue
  | CSTestEndComplete
  | MonitoredAdvertisersReport
  | FrameSpaceUpdateComplete
deriving DecidableEq

/-- Modelled from the spec: the `IntoU8` direction for `SubeventCode`
(the `macros` crate is not under `src/`); discriminants as declared in
`event.rs`. -/
def SubeventCode.toU8 : SubeventCode → Nat
  | SubeventCode.ConnectionComplete => 0x01
  | SubeventCode.AdvertisingReport => 0x02
  | SubeventCode.ConnectionUpdateComplete => 0x03
  | SubeventCode.ReadRemoteFeaturesPage0Complete => 0x04
  | SubeventCode.LongTermKeyRequest => 0x05
  | SubeventCode.RemoteConnectionParameterRequest => 0x06
  | SubeventCode.DataLengthChange => 0x07
  | SubeventCode.ReadLocalP256PublicKeyComplete => 0x08
  | SubeventCode.GenerateDHKeyComplete => 0x09
  | SubeventCode.EnhancedConnectionCompleteV1 => 0x0A
  | SubeventCode.EnhancedConnectionCompleteV2 => 0x29
  | SubeventCode.DirectedAdvertisingReport => 0x0B
  | SubeventCode.PHYUpdateComplete => 0x0C
  | SubeventCode.ExtendedAdvertisingReport => 0x0D
  | SubeventCode.PeriodicAdvertisingSyncEstablished => 0x0E
  | SubeventCode.PeriodicAdvertisingReport => 0x0F
  | SubeventCode.PeriodicAdvertisingSyncLost => 0x10
  | SubeventCode.ScanTimeout => 0x11
  | SubeventCode.AdvertisingSetTerminated => 0x12
  | SubeventCode.ScanRequestReceived => 0x13
  | SubeventCode.ChannelSelectionAlgorithm => 0x14
  | SubeventCode.ConnectionlessIQReport => 0x15
  | SubeventCode.ConnectionIQReport => 0x16
  | SubeventCode.CTERequestFailed => 0x17
  | SubeventCode.PeriodicAdvertisingSyncTransferReceivedV1 => 0x18
  | SubeventCode.PeriodicAdvertisingSyncTransferReceivedV2 => 0x26
  | SubeventCode.CISEstablishedV1 => 0x19
  | SubeventCode.CISEstablishedV2 => 0x2A
  | SubeventCode.CISRequest => 0x1A
  | SubeventCode.CreateBIGComplete => 0x1B
  | SubeventCode.TerminateBIGComplete => 0x1C
  | SubeventCode.BIGSyncEstablished => 0x1D
  | SubeventCode.BIGSyncLost => 0x1E
  | SubeventCode.RequestPeerSCAComplete => 0x1F
  | SubeventCode.PathLossThreshold => 0x20
  | SubeventCode.TransmitPowerReporting => 0x21
  | SubeventCode.BIGInfoAdvertisingReport => 0x22
  | SubeventCode.SubrateChange => 0x23
  | SubeventCode.PeriodicAdvertisingSubeventDataRequest => 0x27
  | SubeventCode.PeriodicAdvertisingResponseReport => 0x28
  | SubeventCode.ReadAllRemoteFeaturesComplete => 0x2B
  | SubeventCode.CSReadRemoteSupportedCapabilitiesComplete => 0x2C
  | SubeventCode.CSReadRemoteFAETableComplete => 0x2D
  | SubeventCode.CSSecurityEnableComplete => 0x2E
  | SubeventCode.CSConfigComplete => 0x2F
  | SubeventCode.CSProcedureEnableComplete => 0x30
  | SubeventCode.CSSubeventResult => 0x31
  | SubeventCode.CSSubeventResultContinue => 0x32
  | SubeventCode.CSTestEndComplete => 0x33
  | SubeventCode.MonitoredAdvertisersReport => 0x34
  | SubeventCode.FrameSpaceUpdateComplete => 0x35

/-- Modelled from the spec: the `FromU8` direction for `SubeventCode`
(the `macros` crate is not under `src/`); a total injective lookup with
an "unrecognized" fallback, represented here by `none`. -/
def SubeventCode.fromU8 (v : Nat) : Option SubeventCode :=
  if v = 0x01 then some SubeventCode.ConnectionComplete
  else if v = 0x02 then some SubeventCode.AdvertisingReport
  else if v = 0x03 then some SubeventCode.ConnectionUpdateComplete
  else if v = 0x04 then some SubeventCode.ReadRemoteFeaturesPage0Complete
  else if v = 0x05 then some SubeventCode.LongTermKeyRequest
  else if v = 0x06 then some SubeventCode.RemoteConnectionParameterRequest
  else if v = 0x07 then some SubeventCode.DataLengthChange
  else if v = 0x08 then some SubeventCode.ReadLocalP256PublicKeyComplete
  else if v = 0x09 then some SubeventCode.GenerateDHKeyComplete
  else if v = 0x0A then some SubeventCode.EnhancedConnectionCompleteV1
  else if v = 0x29 then some SubeventCode.EnhancedConnectionCompleteV2
  else if v = 0x0B then some SubeventCode.DirectedAdvertisingReport
  else if v = 0x0C then some SubeventCode.PHYUpdateComplete
  else if v = 0x0D then some SubeventCode.ExtendedAdvertisingReport
  else if v = 0x0E then some SubeventCode.PeriodicAdvertisingSyncEstablished
  else if v = 0x0F then some SubeventCode.PeriodicAdvertisingReport
  else if v = 0x10 then some SubeventCode.PeriodicAdvertisingSyncLost
  else if v = 0x11 then some SubeventCode.ScanTimeout
  else if v = 0x12 then some SubeventCode.AdvertisingSetTerminated
  else if v = 0x13 then some SubeventCode.ScanRequestReceived
  else if v = 0x14 then some SubeventCode.ChannelSelectionAlgorithm
  else if v = 0x15 then some SubeventCode.ConnectionlessIQReport
  else if v = 0x16 then some SubeventCode.ConnectionIQReport
  else if v = 0x17 then some SubeventCode.CTERequestFailed
  else if v = 0x18 then some SubeventCode.PeriodicAdvertisingSyncTransferReceivedV1
  else if v = 0x26 then some SubeventCode.PeriodicAdvertisingSyncTransferReceivedV2
  else if v = 0x19 then some SubeventCode.CISEstablishedV1
  else if v = 0x2A then some SubeventCode.CISEstablishedV2
  else if v = 0x1A then some SubeventCode.CISRequest
  else if v = 0x1B then some SubeventCode.CreateBIGComplete
  else if v = 0x1C then some SubeventCode.TerminateBIGComplete
  else if v = 0x1D then some SubeventCode.BIGSyncEstablished
  else if v = 0x1E then some SubeventCode.BIGSyncLost
  else if v = 0x1F then some SubeventCode.RequestPeerSCAComplete
  else if v = 0x20 then some SubeventCode.PathLossThreshold
  else if v = 0x21 then some SubeventCode.TransmitPowerReporting
  else if v = 0x22 then some SubeventCode.BIGInfoAdvertisingReport
  else if v = 0x23 then some SubeventCode.SubrateChange
  else if v = 0x27 then some SubeventCode.PeriodicAdvertisingSubeventDataRequest
  else if v = 0x28 then some SubeventCode.PeriodicAdvertisingResponseReport
  else if v = 0x2B then some SubeventCode.ReadAllRemoteFeaturesComplete
  else if v = 0x2C then some SubeventCode.CSReadRemoteSupportedCapabilitiesComplete
  else if v = 0x2D then some SubeventCode.CSReadRemoteFAETableComplete
  else if v = 0x2E then some SubeventCode.CSSecurityEnableComplete
  else if v = 0x2F then some SubeventCode.CSConfigComplete
  else if v = 0x30 then some SubeventCode.CSProcedureEnableComplete
  else if v = 0x31 then some SubeventCode.CSSubeventResult
  else if v = 0x32 then some SubeventCode.CSSubeventResultContinue
  else if v = 0x33 then some SubeventCode.CSTestEndComplete
  else if v = 0x34 then some SubeventCode.MonitoredAdvertisersReport
  else if v = 0x35 then some SubeventCode.FrameSpaceUpdateComplete
  else none

/-- Modelled from the spec: the `gap` module (not under `src/`) declares
`AdvertisingDataType`; per the spec it is "the fixed
specification-defined set" of Advertising Data type codes named in §6. -/
inductive AdvertisingDataType where
  | Flags
  | IncompleteListOf16BitServiceUUIDs
  | CompleteListOf16BitServiceUUIDs
  | IncompleteListOf32BitServiceUUIDs
  | CompleteListOf32BitServiceUUIDs
  | IncompleteListOf128BitServiceUUIDs
  | CompleteListOf128BitServiceUUIDs
  | ShortenedLocalName
  | CompleteLocalName
  | TxPowerLevel
  | ClassOfDevice
  | PeripheralConnectionIntervalRange
  | ServiceData
  | Appearance
  | LEBluetoothDeviceAddress
  | ManufacturerSpecificData
deriving DecidableEq

/-- Modelled from the spec: the byte-to-tag lookup for
`AdvertisingDataType` (the `gap` module and `FromU8` macro are not under
`src/`).  Codes are the Bluetooth-assigned AD type numbers; per spec
§4.5 "an unrecognized code is a decode failure for that entry",
represented here by `none`. -/
def AdvertisingDataType.fromU8 (v : Nat) : Option AdvertisingDataType :=
  if v = 0x01 then some AdvertisingDataType.Flags
  else if v = 0x02 then some AdvertisingDataType.IncompleteListOf16BitServiceUUIDs
  else if v = 0x03 then some AdvertisingDataType.CompleteListOf16BitServiceUUIDs
  else if v = 0x04 then some AdvertisingDataType.IncompleteListOf32BitServiceUUIDs
  else if v = 0x05 then some AdvertisingDataType.CompleteListOf32BitServiceUUIDs
  else if v = 0x06 then some AdvertisingDataType.IncompleteListOf128BitServiceUUIDs
  else if v = 0x07 then some AdvertisingDataType.CompleteListOf128BitServiceUUIDs
  else if v = 0x08 then some AdvertisingDataType.ShortenedLocalName
  else if v = 0x09 then some AdvertisingDataType.CompleteLocalName
  else if v = 0x0A then some AdvertisingDataType.TxPowerLevel
  else if v = 0x0D then some AdvertisingDataType.ClassOfDevice
  else if v = 0x12 then some AdvertisingDataType.PeripheralConnectionIntervalRange
  else if v = 0x16 then some AdvertisingDataType.ServiceData
  else if v = 0x19 then some AdvertisingDataType.Appearance
  else if v = 0x1B then some AdvertisingDataType.LEBluetoothDeviceAddress
  else if v = 0xFF then some AdvertisingDataType.ManufacturerSpecificData
  else none

/-- A UTF-8 continuation byte. -/
def utf8Cont (b : Nat) : Bool :=
  decide (0x80 ≤ b) && decide (b ≤ 0xBF)

/-- Modelled from the spec: `core::str::from_utf8` (Rust standard
library, external to the repository) succeeds exactly on well-formed
UTF-8; this is the standard byte-class table (RFC 3629: no overlong
forms, no surrogates, max U+10FFFF). -/
def utf8Valid : List Nat → Bool
  | [] => true
  | b :: rest =>
    if b < 0x80 then utf8Valid rest
    else if 0xC2 ≤ b ∧ b ≤ 0xDF then
      match rest with
      | c1 :: r => utf8Cont c1 && utf8Valid r
      | [] => false
    else if b = 0xE0 then
      match rest with
      | c1 :: c2 :: r =>
          (decide (0xA0 ≤ c1) && decide (c1 ≤ 0xBF)) && utf8Cont c2 && utf8Valid r
      | _ => false
    else if (0xE1 ≤ b ∧ b ≤ 0xEC) ∨ b = 0xEE ∨ b = 0xEF then
      match rest with
      | c1 :: c2 :: r => utf8Cont c1 && utf8Cont c2 && utf8Valid r
      | _ => false
    else if b = 0xED then
      match rest with
      | c1 :: c2 :: r =>
          (decide (0x80 ≤ c1) && decide (c1 ≤ 0x9F)) && utf8Cont c2 && utf8Valid r
      | _ => false
    else if b = 0xF0 then
      match rest with
      | c1 :: c2 :: c3 :: r =>
          (decide (0x90 ≤ c1) && decide (c1 ≤ 0xBF)) && utf8Cont c2 && utf8Cont c3 &&
            utf8Valid r
      | _ => false
    else if 0xF1 ≤ b ∧ b ≤ 0xF3 then
      match rest with
      | c1 :: c2 :: c3 :: r => utf8Cont c1 && utf8Cont c2 && utf8Cont c3 && utf8Valid r
      | _ => false
    else if b = 0xF4 then
      match rest with
      | c1 :: c2 :: c3 :: r =>
          (decide (0x80 ≤ c1) && decide (c1 ≤ 0x8F)) && utf8Cont c2 && utf8Cont c3 &&
            utf8Valid r
      | _ => false
    else false

/-- `gap::AdvertisingData` — modelled from the spec (the `gap` module is
not under `src/`): each variant holds the decoded scalar or the borrowed
slice produced by the matching arm of `AdvertisingDataIterator::next` in
`event.rs` (local names hold the validated UTF-8 bytes). -/
inductive AdvertisingData where
  | Flags (v : Nat)
  | IncompleteListOf16BitServiceUUIDs (uuids : List Nat)
  | CompleteListOf16BitServiceUUIDs (uuids : List Nat)
  | IncompleteListOf32BitServiceUUIDs (uuids : List Nat)
  | CompleteListOf32BitServiceUUIDs (uuids : List Nat)
  | IncompleteListOf128BitServiceUUIDs (uuids : List Nat)
  | CompleteListOf128BitServiceUUIDs (uuids : List Nat)
  | ShortenedLocalName (name : List Nat)
  | CompleteLocalName (name : List Nat)
  | TxPowerLevel (v : Int)
  | ClassOfDevice (v : Nat)
  | PeripheralConnectionIntervalRange (bytes : List Nat)
  | ServiceData (bytes : List Nat)
  | Appearance (v : Nat)
  | LEBluetoothDeviceAddress (bytes : List Nat)
  | ManufacturerSpecificData (bytes : List Nat)
deriving DecidableEq

/-- The logical field names `event.rs` attaches to failed reads (string
literals in the source, embedded as a finite enumeration whose
constructor names are exactly the source strings). -/
inductive HciField where
  | status
  | connection_handle
  | reason
  | num_hci_command_packets
  | command_opcode
  | return_parameters
  | sub_event_code
  | role
  | peer_address_type
  | peer_address
  | connection_interval
  | peripheral_latency
  | supervision_timeout
  | central_clock_accuracy
  | num_reports
  | reports
deriving DecidableEq

/-- `hci::event::HciParseError`. -/
inductive HciParseError where
  | InvalidField (field : HciField) (position : Nat)
  | OutOfBounds (field : HciField) (position : Nat)
  | InvalidLength (field : HciField) (expected : Nat) (found : Nat)
  | NotImplemented (evcode : Nat) (sub_evcode : Option Nat)
deriving DecidableEq

/-- `hci::event::DisconnectionCompleteEvent`. -/
structure DisconnectionCompleteEvent where
  status : Nat
  connection_handle : Nat
  reason : Nat
deriving DecidableEq

/-- `hci::event::CommandCompleteEvent`. -/
structure CommandCompleteEvent where
  num_hci_command_packets : Nat
  command_opcode : Nat
  return_parameters : List Nat
deriving DecidableEq

/-- `hci::event::ConnectionCompleteEvent`. -/
structure ConnectionCompleteEvent where
  status : Nat
  connection_handle : Nat
  role : Nat
  peer_address_type : Nat
  peer_address : List Nat
  connection_interval : Nat
  peripheral_latency : Nat
  supervision_timeout : Nat
  central_clock_accuracy : Nat
deriving DecidableEq

/-- `hci::event::ConnectionUpdateCompleteEvent`. -/
structure ConnectionUpdateCompleteEvent where
  status : Nat
  connection_handle : Nat
  connection_interval : Nat
  peripheral_latency : Nat
  supervision_timeout : Nat
deriving DecidableEq

/-- `hci::event::AdvertisingReportIterator`: the advisory report count
plus a sub-cursor over the reports payload. -/
structure AdvertisingReportIterator where
  num_reports : Nat
  reader : Reader
deriving DecidableEq

/-- `hci::event::AdvertisingDataIterator`: a sub-cursor over one
report's data block. -/
structure AdvertisingDataIterator where
  reader : Reader
deriving DecidableEq

/-- `hci::event::AdvertisingReport`. -/
structure AdvertisingReport where
  event_type : Nat
  address_type : Nat
  address : List Nat
  data : AdvertisingDataIterator
  rssi : Int
deriving DecidableEq

/-- `hci::event::LEMetaEvent`. -/
inductive LEMetaEvent where
  | ConnectionComplete (e : ConnectionCompleteEvent)
  | AdvertisingReport (it : AdvertisingReportIterator)
  | ConnectionUpdateComplete (e : ConnectionUpdateCompleteEvent)
  | ReadAllRemoteFeaturesComplete (bytes : List Nat)
deriving DecidableEq

/-- `hci::event::HCIEvent`. -/
inductive HCIEvent where
  | DisconnectionComplete (e : DisconnectionCompleteEvent)
  | CommandComplete (e : CommandCompleteEvent)
  | LEMetaEvent (e : LEMetaEvent)
deriving DecidableEq

/-- `HCIEvent::from_packet` (`event.rs`): single-level dispatch on the
event code, recursing into a subevent dispatch for LE Meta Event.  Each
failed field read is re-labelled `OutOfBounds` with the field's name and
the cursor position at failure.  The `Reader` is over
`packet.parameters`; `CommandComplete`'s and `AdvertisingReport`'s
variable tails are computed as `packet.len - reader.pos`, a `usize`
subtraction embedded with `usizeSub`.  The unrecognized-code fallbacks
of the byte-to-tag conversions (modelled from the spec, see `fromU8`)
produce `NotImplemented`; the source logs a diagnostic first, a side
effect not modelled. -/
def HCIEvent.from_packet (packet : HCIEventPacket) : Except HciParseError HCIEvent :=
  let r := Reader.new packet.parameters
  match HCIEventCode.fromU8 packet.evcode with
  | some HCIEventCode.DisconnectionComplete =>
    match r.read_u8 with
    | (none, r1) => Except.error (HciParseError.OutOfBounds HciField.status r1.pos)
    | (some status, r1) =>
      match r1.read_u16 with
      | (none, r2) =>
          Except.error (HciParseError.OutOfBounds HciField.connection_handle r2.pos)
      | (some connection_handle, r2) =>
        match r2.read_u8 with
        | (none, r3) => Except.error (HciParseError.OutOfBounds HciField.reason r3.pos)
        | (some reason, _) =>
            Except.ok (HCIEvent.DisconnectionComplete
              { status := status, connection_handle := connection_handle,
                reason := reason })
  | some HCIEventCode.CommandComplete =>
    match r.read_u8 with
    | (none, r1) =>
        Except.error (HciParseError.OutOfBounds HciField.num_hci_command_packets r1.pos)
    | (some num_hci_command_packets, r1) =>
      match r1.read_u16 with
      | (none, r2) =>
          Except.error (HciParseError.OutOfBounds HciField.command_opcode r2.pos)
      | (some command_opcode, r2) =>
        match r2.read_u8_slice (usizeSub packet.len r2.pos) with
        | (none, r3) =>
            Except.error (HciParseError.OutOfBounds HciField.return_parameters r3.pos)
        | (some return_parameters, _) =>
            Except.ok (HCIEvent.CommandComplete
              { num_hci_command_packets := num_hci_command_packets,
                command_opcode := command_opcode,
                return_parameters := return_parameters })
  | some HCIEventCode.LEMetaEvent =>
    match r.read_u8 with
    | (none, r1) =>
        Except.error (HciParseError.OutOfBounds HciField.sub_event_code r1.pos)
    | (some sub_event_code, r1) =>
      match SubeventCode.fromU8 sub_event_code with
      | some SubeventCode.ConnectionComplete =>
        match r1.read_u8 with
        | (none, r2) => Except.error (HciParseError.OutOfBounds HciField.status r2.pos)
        | (some status, r2) =>
          match r2.read_u16 with
          | (none, r3) =>
              Except.error (HciParseError.OutOfBounds HciField.connection_handle r3.pos)
          | (some connection_handle, r3) =>
            match r3.read_u8 with
            | (none, r4) => Except.error (HciParseError.OutOfBounds HciField.role r4.pos)
            | (some role, r4) =>
              match r4.read_u8 with
              | (none, r5) =>
                  Except.error (HciParseError.OutOfBounds HciField.peer_address_type r5.pos)
              | (some peer_address_type, r5) =>
                match r5.read_u8_slice 6 with
                | (none, r6) =>
                    Except.error (HciParseError.OutOfBounds HciField.peer_address r6.pos)
                | (some peer_address, r6) =>
                  match r6.read_u16 with
                  | (none, r7) =>
                      Except.error
                        (HciParseError.OutOfBounds HciField.connection_interval r7.pos)
                  | (some connection_interval, r7) =>
                    match r7.read_u16 with
                    | (none, r8) =>
                        Except.error
                          (HciParseError.OutOfBounds HciField.peripheral_latency r8.pos)
                    | (some peripheral_latency, r8) =>
                      match r8.read_u16 with
                      | (none, r9) =>
                          Except.error
                            (HciParseError.OutOfBounds HciField.supervision_timeout r9.pos)
                      | (some supervision_timeout, r9) =>
                        match r9.read_u8 with
                        | (none, r10) =>
                            Except.error (HciParseError.OutOfBounds
                              HciField.central_clock_accuracy r10.pos)
                        | (some central_clock_accuracy, _) =>
                            Except.ok (HCIEvent.LEMetaEvent (LEMetaEvent.ConnectionComplete
                              { status := status,
                                connection_handle := connection_handle,
                                role := role,
                                peer_address_type := peer_address_type,
                                peer_address := peer_address,
                                connection_interval := connection_interval,
                                peripheral_latency := peripheral_latency,
                                supervision_timeout := supervision_timeout,
                                central_clock_accuracy := central_clock_accuracy }))
      | some SubeventCode.AdvertisingReport =>
        match r1.read_u8 with
        | (none, r2) =>
            Except.error (HciParseError.OutOfBounds HciField.num_reports r2.pos)
        | (some num_reports, r2) =>
          match r2.read_u8_slice (usizeSub packet.len r2.pos) with
          | (none, r3) => Except.error (HciParseError.OutOfBounds HciField.reports r3.pos)
          | (some reports, _) =>
              Except.ok (HCIEvent.LEMetaEvent (LEMetaEvent.AdvertisingReport
                { num_reports := num_reports, reader := Reader.new reports }))
      | some SubeventCode.ConnectionUpdateComplete =>
        match r1.read_u8 with
        | (none, r2) => Except.error (HciParseError.OutOfBounds HciField.status r2.pos)
        | (some status, r2) =>
          match r2.read_u16 with
          | (none, r3) =>
              Except.error (HciParseError.OutOfBounds HciField.connection_handle r3.pos)
          | (some connection_handle, r3) =>
            match r3.read_u16 with
            | (none, r4) =>
                Except.error (HciParseError.OutOfBounds HciField.connection_interval r4.pos)
            | (some connection_interval, r4) =>
              match r4.read_u16 with
              | (none, r5) =>
                  Except.error (HciParseError.OutOfBounds HciField.peripheral_latency r5.pos)
              | (some peripheral_latency, r5) =>
                match r5.read_u16 with
                | (none, r6) =>
                    Except.error
                      (HciParseError.OutOfBounds HciField.supervision_timeout r6.pos)
                | (some supervision_timeout, _) =>
                    Except.ok (HCIEvent.LEMetaEvent (LEMetaEvent.ConnectionUpdateComplete
                      { status := status,
                        connection_handle := connection_handle,
                        connection_interval := connection_interval,
                        peripheral_latency := peripheral_latency,
                        supervision_timeout := supervision_timeout }))
      | some code =>
          Except.error (HciParseError.NotImplemented
            (HCIEventCode.toU8 HCIEventCode.LEMetaEvent) (some (SubeventCode.toU8 code)))
      | none =>
          Except.error (HciParseError.NotImplemented
            (HCIEventCode.toU8 HCIEventCode.LEMetaEvent) (some sub_event_code))
  | none => Except.error (HciParseError.NotImplemented packet.evcode none)

/-- `Iterator::next` for `AdvertisingReportIterator` (`event.rs`): stop
when the sub-cursor is exhausted, otherwise read one fixed-plus-variable
record; any failed field read yields `none` (the Rust `?`), never an
error. -/
def AdvertisingReportIterator.next (it : AdvertisingReportIterator) :
    Option (AdvertisingReport × AdvertisingReportIterator) :=
  if it.reader.remaining = 0 then none
  else
    match it.reader.read_u8 with
    | (none, _) => none
    | (some event_type, r1) =>
      match r1.read_u8 with
      | (none, _) => none
      | (some address_type, r2) =>
        match r2.read_u8_slice 6 with
        | (none, _) => none
        | (some address, r3) =>
          match r3.read_u8 with
          | (none, _) => none
          | (some len, r4) =>
            match r4.read_u8_slice len with
            | (none, _) => none
            | (some dat, r5) =>
              match r5.read_u8 with
              | (none, _) => none
              | (some rssi, r6) =>
                  some ({ event_type := event_type,
                          address_type := address_type,
                          address := address,
                          data := { reader := Reader.new dat },
                          rssi := byteAsI8 rssi },
                        { num_reports := it.num_reports, reader := r6 })

/-- `Iterator::next` for `AdvertisingDataIterator` (`event.rs`): stop on
an exhausted sub-cursor; read a 1-byte total length `L`, a 1-byte type
code, then `L - 1` value bytes (`usize` subtraction, embedded with
`usizeSub`), and reinterpret per the type code over a fresh sub-reader.
The UUID-list arms pass the full `len` to the reinterpreting read, as
the source does.  Any failure yields `none`, ending iteration. -/
def AdvertisingDataIterator.next (it : AdvertisingDataIterator) :
    Option (AdvertisingData × AdvertisingDataIterator) :=
  if it.reader.remaining = 0 then none
  else
    match it.reader.read_u8 with
    | (none, _) => none
    | (some len, r1) =>
      match r1.read_u8 with
      | (none, _) => none
      | (some type_code, r2) =>
        match r2.read_u8_slice (usizeSub len 1) with
        | (none, _) => none
        | (some dat, r3) =>
          let vr := Reader.new dat
          match AdvertisingDataType.fromU8 type_code with
          | none => none
          | some AdvertisingDataType.Flags =>
            match vr.read_u8 with
            | (none, _) => none
            | (some v, _) => some (AdvertisingData.Flags v, { reader := r3 })
          | some AdvertisingDataType.IncompleteListOf16BitServiceUUIDs =>
            match vr.read_u16_slice len with
            | (none, _) => none
            | (some uuids, _) =>
                some (AdvertisingData.IncompleteListOf16BitServiceUUIDs uuids,
                      { reader := r3 })
          | some AdvertisingDataType.CompleteListOf16BitServiceUUIDs =>
            match vr.read_u16_slice len with
            | (none, _) => none
            | (some uuids, _) =>
                some (AdvertisingData.CompleteListOf16BitServiceUUIDs uuids,
                      { reader := r3 })
          | some AdvertisingDataType.IncompleteListOf32BitServiceUUIDs =>
            match vr.read_u32_slice len with
            | (none, _) => none
            | (some uuids, _) =>
                some (AdvertisingData.IncompleteListOf32BitServiceUUIDs uuids,
                      { reader := r3 })
          | some AdvertisingDataType.CompleteListOf32BitServiceUUIDs =>
            match vr.read_u32_slice len with
            | (none, _) => none
            | (some uuids, _) =>
                some (AdvertisingData.CompleteListOf32BitServiceUUIDs uuids,
                      { reader := r3 })
          | some AdvertisingDataType.IncompleteListOf128BitServiceUUIDs =>
            match vr.read_u128_slice len with
            | (none, _) => none
            | (some uuids, _) =>
                some (AdvertisingData.IncompleteListOf128BitServiceUUIDs uuids,
                      { reader := r3 })
          | some AdvertisingDataType.CompleteListOf128BitServiceUUIDs =>
            match vr.read_u128_slice len with
            | (none, _) => none
            | (some uuids, _) =>
                some (AdvertisingData.CompleteListOf128BitServiceUUIDs uuids,
                      { reader := r3 })
          | some AdvertisingDataType.ShortenedLocalName =>
            match vr.read_u8_slice vr.remaining with
            | (none, _) => none
            | (some bytes, _) =>
                if utf8Valid bytes then
                  some (AdvertisingData.ShortenedLocalName bytes, { reader := r3 })
                else none
          | some AdvertisingDataType.CompleteLocalName =>
            match vr.read_u8_slice vr.remaining with
            | (none, _) => none
            | (some bytes, _) =>
                if utf8Valid bytes then
                  some (AdvertisingData.CompleteLocalName bytes, { reader := r3 })
                else none
          | some AdvertisingDataType.TxPowerLevel =>
            match vr.read_u8 with
            | (none, _) => none
            | (some v, _) => some (AdvertisingData.TxPowerLevel (byteAsI8 v), { reader := r3 })
          | some AdvertisingDataType.ClassOfDevice =>
            match vr.read_u32 with
            | (none, _) => none
            | (some v, _) => some (AdvertisingData.ClassOfDevice v, { reader := r3 })
          | some AdvertisingDataType.PeripheralConnectionIntervalRange =>
            match vr.read_u8_slice vr.remaining with
            | (none, _) => none
            | (some bytes, _) =>
                some (AdvertisingData.PeripheralConnectionIntervalRange bytes,
                      { reader := r3 })
          | some AdvertisingDataType.ServiceData =>
            match vr.read_u8_slice vr.remaining with
            | (none, _) => none
            | (some bytes, _) => some (AdvertisingData.ServiceData bytes, { reader := r3 })
          | some AdvertisingDataType.Appearance =>
            match vr.read_u16 with
            | (none, _) => none
            | (some v, _) => some (AdvertisingData.Appearance v, { reader := r3 })
          | some AdvertisingDataType.LEBluetoothDeviceAddress =>
            match vr.read_u8_slice vr.remaining with
            | (none, _) => none
            | (some bytes, _) =>
                some (AdvertisingData.LEBluetoothDeviceAddress bytes, { reader := r3 })
          | some AdvertisingDataType.ManufacturerSpecificData =>
            match vr.read_u8_slice vr.remaining with
            | (none, _) => none
            | (some bytes, _) =>
                some (AdvertisingData.ManufacturerSpecificData bytes, { reader := r3 })

/-- One well-formed advertising-report record, as laid out on the wire
(spec §4.4): 1-byte event type, 1-byte address type, 6-byte address,
1-byte data length, the data bytes, 1-byte RSSI. -/
structure AdvRecord where
  event_type : Nat
  address_type : Nat
  address : List Nat
  data : List Nat
  rssi : Nat
deriving DecidableEq

/-- Wire encoding of one advertising-report record. -/
def encRecord (r : AdvRecord) : List Nat :=
  r.event_type :: r.address_type :: (r.address ++ r.data.length :: (r.data ++ [r.rssi]))

/-- Wire encoding of a list of consecutive records (no trailing bytes). -/
def encReports : List AdvRecord → List Nat
  | [] => []
  | r :: rs => encRecord r ++ encReports rs

/-- Well-formedness of a record: the address is 6 bytes, the data block
fits its 1-byte length prefix, and every stored value is a byte. -/
def wfRecord (r : AdvRecord) : Prop :=
  r.event_type < 256 ∧ r.address_type < 256 ∧ r.address.length = 6 ∧
    (∀ b ∈ r.address, b < 256) ∧ r.data.length ≤ 255 ∧
    (∀ b ∈ r.data, b < 256) ∧ r.rssi < 256

instance (r : AdvRecord) : Decidable (wfRecord r) := by
  unfold wfRecord; infer_instance

/-- The `AdvertisingReport` value `next` produces for a record. -/
def toReport (r : AdvRecord) : AdvertisingReport :=
  { event_type := r.event_type, address_type := r.address_type,
    address := r.address, data := { reader := Reader.new r.data },
    rssi := byteAsI8 r.rssi }

/-- Drive an `AdvertisingReportIterator` by repeated `next` calls,
collecting the yielded items (at most `fuel` of them; a `none` stops
collection). -/
def collectReports : AdvertisingReportIterator → Nat → List AdvertisingReport
  | _, 0 => []
  | it, fuel + 1 =>
    match it.next with
    | none => []
    | some (rep, it2) => rep :: collectReports it2 fuel

theorem leBytesToNat_nil : leBytesToNat [] = 0 := rfl

theorem leBytesToNat_single (b : Nat) : leBytesToNat [b] = b := by
  simp [leBytesToNat]

theorem leBytesToNat_pair (b0 b1 : Nat) : leBytesToNat [b0, b1] = b0 + 256 * b1 := by
  simp [leBytesToNat]

theorem remaining_eq (buf : List Nat) (pos : Nat) :
    Reader.remaining ⟨buf, pos⟩ = (buf.drop pos).length := by
  simp [Reader.remaining]

theorem read_u8_slice_of_le (buf : List Nat) (pos len : Nat) (h : pos + len ≤ buf.length) :
    Reader.read_u8_slice ⟨buf, pos⟩ len
      = (some ((buf.drop pos).take len), ⟨buf, pos + len⟩) := by
  simp only [Reader.read_u8_slice, Reader.remaining]
  rw [if_neg (by omega)]

theorem read_u8_slice_of_fail (buf : List Nat) (pos len : Nat)
    (h : buf.length - pos < len) :
    Reader.read_u8_slice ⟨buf, pos⟩ len = (none, ⟨buf, pos⟩) := by
  simp only [Reader.read_u8_slice, Reader.remaining]
  rw [if_pos (by omega)]

theorem drop_at_cons (buf : List Nat) (pos b : Nat) (t : List Nat)
    (hd : buf.drop pos = b :: t) : buf.drop (pos + 1) = t := by
  have h1 : List.drop 1 (List.drop pos buf) = List.drop (pos + 1) buf :=
    List.drop_drop 1 pos buf
  rw [← h1, hd]
  rfl

theorem drop_at_append (buf : List Nat) (pos k : Nat) (p t : List Nat)
    (hd : buf.drop pos = p ++ t) (hl : p.length = k) : buf.drop (pos + k) = t := by
  have h1 : List.drop k (List.drop pos buf) = List.drop (pos + k) buf :=
    List.drop_drop k pos buf
  rw [← h1, hd, ← hl, List.drop_left]

theorem drop_len_at_cons (buf : List Nat) (pos b : Nat) (t : List Nat)
    (hd : buf.drop pos = b :: t) : buf.length - pos = t.length + 1 := by
  have h1 : (buf.drop pos).length = buf.length - pos := List.length_drop pos buf
  rw [hd] at h1
  simpa using h1.symm

theorem drop_len_at_append (buf : List Nat) (pos : Nat) (p t : List Nat)
    (hd : buf.drop pos = p ++ t) : buf.length - pos = p.length + t.length := by
  have h1 : (buf.drop pos).length = buf.length - pos := List.length_drop pos buf
  rw [hd] at h1
  simpa using h1.symm

theorem read_u8_at (buf : List Nat) (pos b : Nat) (t : List Nat)
    (hd : buf.drop pos = b :: t) :
    Reader.read_u8 ⟨buf, pos⟩ = (some b, ⟨buf, pos + 1⟩) := by
  have hlen := drop_len_at_cons buf pos b t hd
  unfold Reader.read_u8
  rw [read_u8_slice_of_le buf pos 1 (by omega), hd]
  simp [leBytesToNat]

theorem read_u16_at (buf : List Nat) (pos b0 b1 : Nat) (t : List Nat)
    (hd : buf.drop pos = b0 :: b1 :: t) :
    Reader.read_u16 ⟨buf, pos⟩ = (some (b0 + 256 * b1), ⟨buf, pos + 2⟩) := by
  have hlen := drop_len_at_cons buf pos b0 (b1 :: t) hd
  unfold Reader.read_u16
  rw [read_u8_slice_of_le buf pos 2 (by simp at hlen; omega), hd]
  simp [leBytesToNat]

theorem read_u8_slice_at (buf : List Nat) (pos len : Nat) (p t : List Nat)
    (hd : buf.drop pos = p ++ t) (hl : p.length = len) :
    Reader.read_u8_slice ⟨buf, pos⟩ len = (some p, ⟨buf, pos + len⟩) := by
  have hlen := drop_len_at_append buf pos p t hd
  simp only [Reader.read_u8_slice, Reader.remaining]
  rw [if_neg (by omega), hd, List.take_left' hl]

theorem encRecord_length (r : AdvRecord) (h6 : r.address.length = 6) :
    (encRecord r).length = 10 + r.data.length := by
  simp [encRecord, h6]
  omega

theorem reportNext_at (num : Nat) (buf : List Nat) (pos : Nat) (r : AdvRecord)
    (rest : List Nat) (h6 : r.address.length = 6)
    (hd : buf.drop pos = encRecord r ++ rest) :
    AdvertisingReportIterator.next ⟨num, ⟨buf, pos⟩⟩
      = some (toReport r, ⟨num, ⟨buf, pos + (10 + r.data.length)⟩⟩) := by
  have hd0 : buf.drop pos
      = r.event_type :: r.address_type ::
          (r.address ++ r.data.length :: (r.data ++ r.rssi :: rest)) := by
    simpa [encRecord, List.append_assoc] using hd
  have h1 := read_u8_at buf pos _ _ hd0
  have hd1 := drop_at_cons buf pos _ _ hd0
  have h2 := read_u8_at buf (pos + 1) _ _ hd1
  have hd2 := drop_at_cons buf (pos + 1) _ _ hd1
  have h3 := read_u8_slice_at buf (pos + 1 + 1) 6 r.address _ hd2 h6
  have hd3 := drop_at_append buf (pos + 1 + 1) 6 r.address _ hd2 h6
  have h4 := read_u8_at buf (pos + 1 + 1 + 6) _ _ hd3
  have hd4 := drop_at_cons buf (pos + 1 + 1 + 6) _ _ hd3
  have h5 := read_u8_slice_at buf (pos + 1 + 1 + 6 + 1) r.data.length r.data _ hd4 rfl
  have hd5 := drop_at_append buf (pos + 1 + 1 + 6 + 1) r.data.length r.data _ hd4 rfl
  have h6r := read_u8_at buf (pos + 1 + 1 + 6 + 1 + r.data.length) _ _ hd5
  have hrem : Reader.remaining ⟨buf, pos⟩ ≠ 0 := by
    rw [remaining_eq, hd0]
    simp
  have hp : pos + 1 + 1 + 6 + 1 + r.data.length + 1 = pos + (10 + r.data.length) := by
    omega
  unfold AdvertisingReportIterator.next
  simp only [if_neg hrem, h1, h2, h3, h4, h5, h6r, hp, toReport]

theorem read_u8_fail (buf : List Nat) (pos : Nat) (h : buf.length - pos < 1) :
    Reader.read_u8 ⟨buf, pos⟩ = (none, ⟨buf, pos⟩) := by
  unfold Reader.read_u8
  rw [read_u8_slice_of_fail buf pos 1 h]

theorem read_u8_succ_ex (buf : List Nat) (pos : Nat) (h : pos + 1 ≤ buf.length) :
    ∃ b, Reader.read_u8 ⟨buf, pos⟩ = (some b, ⟨buf, pos + 1⟩) := by
  unfold Reader.read_u8
  rw [read_u8_slice_of_le buf pos 1 h]
  exact ⟨_, rfl⟩

theorem read_u16_succ_ex (buf : List Nat) (pos : Nat) (h : pos + 2 ≤ buf.length) :
    ∃ b, Reader.read_u16 ⟨buf, pos⟩ = (some b, ⟨buf, pos + 2⟩) := by
  unfold Reader.read_u16
  rw [read_u8_slice_of_le buf pos 2 h]
  exact ⟨_, rfl⟩

theorem read_u8_slice_succ_ex (buf : List Nat) (pos len : Nat)
    (h : pos + len ≤ buf.length) :
    ∃ s, Reader.read_u8_slice ⟨buf, pos⟩ len = (some s, ⟨buf, pos + len⟩)
      ∧ s.length = len := by
  rw [read_u8_slice_of_le buf pos len h]
  refine ⟨_, rfl, ?_⟩
  simp
  omega

theorem reportNext_end (num : Nat) (buf : List Nat) (pos : Nat)
    (h : buf.length - pos = 0) :
    AdvertisingReportIterator.next ⟨num, ⟨buf, pos⟩⟩ = none := by
  unfold AdvertisingReportIterator.next
  simp [Reader.remaining, h]

theorem collect_enc (rs : List AdvRecord) :
    ∀ (num fuel : Nat) (pre : List Nat),
      (∀ r ∈ rs, wfRecord r) →
      collectReports ⟨num, ⟨pre ++ encReports rs, pre.length⟩⟩ fuel
        = (rs.take fuel).map toReport := by
  induction rs with
  | nil =>
    intro num fuel pre _
    cases fuel with
    | zero => rfl
    | succ n =>
      unfold collectReports
      rw [reportNext_end num _ pre.length (by simp [encReports])]
      simp
  | cons r rs ih =>
    intro num fuel pre hwf
    cases fuel with
    | zero => rfl
    | succ n =>
      have h6 : r.address.length = 6 := (hwf r (by simp)).2.2.1
      have hd : (pre ++ encReports (r :: rs)).drop pre.length
          = encRecord r ++ encReports rs := by
        have : encReports (r :: rs) = encRecord r ++ encReports rs := rfl
        rw [this, List.drop_left]
      unfold collectReports
      rw [reportNext_at num _ pre.length r (encReports rs) h6 hd]
      have hpre : pre.length + (10 + r.data.length) = (pre ++ encRecord r).length := by
        simp [encRecord_length r h6]
      have hbuf : pre ++ encReports (r :: rs) = (pre ++ encRecord r) ++ encReports rs := by
        have : encReports (r :: rs) = encRecord r ++ encReports rs := rfl
        rw [this, List.append_assoc]
      rw [hpre, hbuf]
      simp only [List.take_succ_cons, List.map_cons]
      exact congrArg (fun l => toReport r :: l)
        (ih num n (pre ++ encRecord r) (fun x hx => hwf x (by simp [hx])))

theorem read_u8_slice_spec (r : Reader) (len : Nat) (h : r.pos ≤ r.buf.length) :
    (r.read_u8_slice len).2.buf = r.buf ∧
    (r.read_u8_slice len).2.pos ≤ r.buf.length ∧
    ((r.read_u8_slice len).1 = none → (r.read_u8_slice len).2 = r) ∧
    ((r.read_u8_slice len).1.isSome → (r.read_u8_slice len).2.pos = r.pos + len) := by
  unfold Reader.read_u8_slice Reader.remaining
  split
  case isTrue hlt => exact ⟨rfl, h, fun _ => rfl, by simp⟩
  case isFalse hge => exact ⟨rfl, by simp only; omega, by simp, fun _ => rfl⟩

theorem read_u8_spec (r : Reader) (h : r.pos ≤ r.buf.length) :
    (r.read_u8).2.buf = r.buf ∧ (r.read_u8).2.pos ≤ r.buf.length ∧
    ((r.read_u8).1 = none → (r.read_u8).2 = r) ∧
    ((r.read_u8).1.isSome → (r.read_u8).2.pos = r.pos + 1) := by
  have hs := read_u8_slice_spec r 1 h
  unfold Reader.read_u8
  rcases hx : r.read_u8_slice 1 with ⟨o, r1⟩
  rw [hx] at hs
  cases o <;> simp_all <;> omega

theorem read_u16_spec (r : Reader) (h : r.pos ≤ r.buf.length) :
    (r.read_u16).2.buf = r.buf ∧ (r.read_u16).2.pos ≤ r.buf.length ∧
    ((r.read_u16).1 = none → (r.read_u16).2 = r) ∧
    ((r.read_u16).1.isSome → (r.read_u16).2.pos = r.pos + 2) := by
  have hs := read_u8_slice_spec r 2 h
  unfold Reader.read_u16
  rcases hx : r.read_u8_slice 2 with ⟨o, r1⟩
  rw [hx] at hs
  cases o <;> simp_all <;> omega

theorem read_u32_spec (r : Reader) (h : r.pos ≤ r.buf.length) :
    (r.read_u32).2.buf = r.buf ∧ (r.read_u32).2.pos ≤ r.buf.length ∧
    ((r.read_u32).1 = none → (r.read_u32).2 = r) ∧
    ((r.read_u32).1.isSome → (r.read_u32).2.pos = r.pos + 4) := by
  have hs := read_u8_slice_spec r 4 h
  unfold Reader.read_u32
  rcases hx : r.read_u8_slice 4 with ⟨o, r1⟩
  rw [hx] at hs
  cases o <;> simp_all <;> omega

theorem read_u64_spec (r : Reader) (h : r.pos ≤ r.buf.length) :
    (r.read_u64).2.buf = r.buf ∧ (r.read_u64).2.pos ≤ r.buf.length ∧
    ((r.read_u64).1 = none → (r.read_u64).2 = r) ∧
    ((r.read_u64).1.isSome → (r.read_u64).2.pos = r.pos + 8) := by
  have hs := read_u8_slice_spec r 8 h
  unfold Reader.read_u64
  rcases hx : r.read_u8_slice 8 with ⟨o, r1⟩
  rw [hx] at hs
  cases o <;> simp_all <;> omega

theorem read_u128_spec (r : Reader) (h : r.pos ≤ r.buf.length) :
    (r.read_u128).2.buf = r.buf ∧ (r.read_u128).2.pos ≤ r.buf.length ∧
    ((r.read_u128).1 = none → (r.read_u128).2 = r) ∧
    ((r.read_u128).1.isSome → (r.read_u128).2.pos = r.pos + 16) := by
  have hs := read_u8_slice_spec r 16 h
  unfold Reader.read_u128
  rcases hx : r.read_u8_slice 16 with ⟨o, r1⟩
  rw [hx] at hs
  cases o <;> simp_all <;> omega

theorem read_u16_slice_spec (r : Reader) (len : Nat) (h : r.pos ≤ r.buf.length) :
    (r.read_u16_slice len).2.buf = r.buf ∧
    (r.read_u16_slice len).2.pos ≤ r.buf.length ∧
    ((r.read_u16_slice len).1 = none → (r.read_u16_slice len).2 = r) ∧
    ((r.read_u16_slice len).1.isSome → (r.read_u16_slice len).2.pos = r.pos + len) ∧
    (len % 2 ≠ 0 → (r.read_u16_slice len).1 = none) := by
  unfold Reader.read_u16_slice Reader.remaining
  split
  case isTrue hlt => exact ⟨rfl, h, fun _ => rfl, by simp, fun _ => rfl⟩
  case isFalse hge =>
    have hlen : ((r.buf.drop r.pos).take len).length = len := by
      simp only [List.length_take, List.length_drop]
      omega
    rcases hm : as_u16_slice ((r.buf.drop r.pos).take len) with _ | s
    · exact ⟨rfl, h, fun _ => rfl, by simp, fun _ => rfl⟩
    · refine ⟨rfl, by simp only; omega, by simp, fun _ => rfl, fun hmod => ?_⟩
      unfold as_u16_slice at hm
      rw [hlen, if_pos hmod] at hm
      exact absurd hm (by simp)

theorem read_u32_slice_spec (r : Reader) (len : Nat) (h : r.pos ≤ r.buf.length) :
    (r.read_u32_slice len).2.buf = r.buf ∧
    (r.read_u32_slice len).2.pos ≤ r.buf.length ∧
    ((r.read_u32_slice len).1 = none → (r.read_u32_slice len).2 = r) ∧
    ((r.read_u32_slice len).1.isSome → (r.read_u32_slice len).2.pos = r.pos + len) ∧
    (len % 4 ≠ 0 → (r.read_u32_slice len).1 = none) := by
  unfold Reader.read_u32_slice Reader.remaining
  split
  case isTrue hlt => exact ⟨rfl, h, fun _ => rfl, by simp, fun _ => rfl⟩
  case isFalse hge =>
    have hlen : ((r.buf.drop r.pos).take len).length = len := by
      simp only [List.length_take, List.length_drop]
      omega
    rcases hm : as_u32_slice ((r.buf.drop r.pos).take len) with _ | s
    · exact ⟨rfl, h, fun _ => rfl, by simp, fun _ => rfl⟩
    · refine ⟨rfl, by simp only; omega, by simp, fun _ => rfl, fun hmod => ?_⟩
      unfold as_u32_slice at hm
      rw [hlen, if_pos hmod] at hm
      exact absurd hm (by simp)

theorem read_u64_slice_spec (r : Reader) (len : Nat) (h : r.pos ≤ r.buf.length) :
    (r.read_u64_slice len).2.buf = r.buf ∧
    (r.read_u64_slice len).2.pos ≤ r.buf.length ∧
    ((r.read_u64_slice len).1 = none → (r.read_u64_slice len).2 = r) ∧
    ((r.read_u64_slice len).1.isSome → (r.read_u64_slice len).2.pos = r.pos + len) ∧
    (len % 8 ≠ 0 → (r.read_u64_slice len).1 = none) := by
  unfold Reader.read_u64_slice Reader.remaining
  split
  case isTrue hlt => exact ⟨rfl, h, fun _ => rfl, by simp, fun _ => rfl⟩
  case isFalse hge =>
    have hlen : ((r.buf.drop r.pos).take len).length = len := by
      simp only [List.length_take, List.length_drop]
      omega
    rcases hm : as_u64_slice ((r.buf.drop r.pos).take len) with _ | s
    · exact ⟨rfl, h, fun _ => rfl, by simp, fun _ => rfl⟩
    · refine ⟨rfl, by simp only; omega, by simp, fun _ => rfl, fun hmod => ?_⟩
      unfold as_u64_slice at hm
      rw [hlen, if_pos hmod] at hm
      exact absurd hm (by simp)

theorem read_u128_slice_spec (r : Reader) (len : Nat) (h : r.pos ≤ r.buf.length) :
    (r.read_u128_slice len).2.buf = r.buf ∧
    (r.read_u128_slice len).2.pos ≤ r.buf.length ∧
    ((r.read_u128_slice len).1 = none → (r.read_u128_slice len).2 = r) ∧
    ((r.read_u128_slice len).1.isSome → (r.read_u128_slice len).2.pos = r.pos + len) ∧
    (len % 16 ≠ 0 → (r.read_u128_slice len).1 = none) := by
  unfold Reader.read_u128_slice Reader.remaining
  split
  case isTrue hlt => exact ⟨rfl, h, fun _ => rfl, by simp, fun _ => rfl⟩
  case isFalse hge =>
    have hlen : ((r.buf.drop r.pos).take len).length = len := by
      simp only [List.length_take, List.length_drop]
      omega
    rcases hm : as_u128_slice ((r.buf.drop r.pos).take len) with _ | s
    · exact ⟨rfl, h, fun _ => rfl, by simp, fun _ => rfl⟩
    · refine ⟨rfl, by simp only; omega, by simp, fun _ => rfl, fun hmod => ?_⟩
      unfold as_u128_slice at hm
      rw [hlen, if_pos hmod] at hm
      exact absurd hm (by simp)

theorem seek_spec (r : Reader) (p : Nat) (h : r.pos ≤ r.buf.length) :
    (r.seek p).2.buf = r.buf ∧ (r.seek p).2.pos ≤ r.buf.length ∧
    ((r.seek p).1 = Except.ok () → (r.seek p).2.pos = p) ∧
    (∀ e, (r.seek p).1 = Except.error e → (r.seek p).2 = r) := by
  unfold Reader.seek
  split
  case isTrue hgt => exact ⟨rfl, h, by simp, fun _ _ => rfl⟩
  case isFalse hle => exact ⟨rfl, by simp only; omega, fun _ => rfl, by simp⟩

theorem usizeSub_of_lt (a b : Nat) (h1 : a < b) (h2 : b ≤ 2 ^ 64) :
    usizeSub a b = a + 2 ^ 64 - b := by
  unfold usizeSub
  rw [Nat.mod_eq_of_lt (by omega)]

theorem usizeSub_of_le (a b : Nat) (h1 : b ≤ a) (h2 : a < 2 ^ 64) :
    usizeSub a b = a - b := by
  unfold usizeSub
  have hsplit : a + 2 ^ 64 - b = (a - b) + 2 ^ 64 := by omega
  rw [hsplit, Nat.add_mod_right]
  exact Nat.mod_eq_of_lt (by omega)

theorem read_u16_fail (buf : List Nat) (pos : Nat) (h : buf.length - pos < 2) :
    Reader.read_u16 ⟨buf, pos⟩ = (none, ⟨buf, pos⟩) := by
  unfold Reader.read_u16
  rw [read_u8_slice_of_fail buf pos 2 h]

theorem subevent_roundtrip (c : SubeventCode) :
    SubeventCode.fromU8 (SubeventCode.toU8 c) = some c := by
  cases c <;> decide

theorem from_packet_sub_notimpl (b : Nat) (c : SubeventCode) (len : Nat) (rest : List Nat)
    (hb : SubeventCode.fromU8 b = some c)
    (h1 : c ≠ SubeventCode.ConnectionComplete)
    (h2 : c ≠ SubeventCode.AdvertisingReport)
    (h3 : c ≠ SubeventCode.ConnectionUpdateComplete) :
    HCIEvent.from_packet ⟨0x3E, len, b :: rest⟩
      = Except.error (HciParseError.NotImplemented 0x3E (some (SubeventCode.toU8 c))) := by
  have hcode : HCIEventCode.fromU8 0x3E = some HCIEventCode.LEMetaEvent := by decide
  have e1 : Reader.read_u8 ⟨b :: rest, 0⟩ = (some b, ⟨b :: rest, 0 + 1⟩) :=
    read_u8_at (b :: rest) 0 b rest rfl
  unfold HCIEvent.from_packet
  simp only [Reader.new, hcode, e1, hb]
  cases c
  case ConnectionComplete => exact absurd rfl h1
  case AdvertisingReport => exact absurd rfl h2
  case ConnectionUpdateComplete => exact absurd rfl h3
  all_goals rfl

/-- C2: the claim reads the ACL-Data header word as connection handle in
the low 12 bits and flags in the high 4 bits (as the Bluetooth Core
specification cited by `packet.rs` defines it); the code instead takes
the handle from the high 12 bits (`(header & 0xFFF0) >> 4`) and the
flags from the low 4 bits.  Witnessed here at the buffer
`[0x02, 0x01, 0x00, 0x00, 0x00]`, whose header word is `0x0001`: the
claim predicts `handle = 1` and `broadcast_flag = 0`, while the code
yields `handle = 0` and `broadcast_flag = 1`. -/
theorem C2_acl_header_eval :
    HCIPacket.from_buf [0x02, 0x01, 0x00, 0x00, 0x00]
      = PanicOr.ret (some (HCIPacket.ACLData
          { handle := 0, packet_boundary_flag := 0, broadcast_flag := 1,
            len := 0, data := [] })) := by
  decide

/-- C3: the claim says a well-formed 16-bit service-UUID-list entry is
yielded with its `L - 1` value bytes reinterpreted as 16-bit UUIDs; but
`AdvertisingDataIterator::next` passes the full length `L` to
`read_u16_slice` over a sub-reader holding only `L - 1` bytes, so the
bounds check always fails and the entry is dropped (iteration ends).
Witnessed here at the entry `[0x03, 0x02, 0x34, 0x12]` (`L = 3`, type
`0x02`, value bytes `0x1234` little-endian), where the claim predicts an
`IncompleteListOf16BitServiceUUIDs [0x1234]` item and the code yields
`none`. -/
theorem C3_uuid16_entry_eval :
    AdvertisingDataIterator.next ⟨Reader.new [0x03, 0x02, 0x34, 0x12]⟩ = none := by
  decide

/-- C4: for every event code byte other than the handled `0x05`, `0x0E`
and `0x3E`, `HCIEvent::from_packet` returns `NotImplemented` carrying
that event code and no subevent code (the conversion's unrecognized
fallback is modelled from the spec, see `HCIEventCode.fromU8`). -/
theorem C4_unknown_evcode_notimpl (evcode len : Nat) (params : List Nat)
    (h1 : evcode ≠ 0x05) (h2 : evcode ≠ 0x0E) (h3 : evcode ≠ 0x3E) :
    HCIEvent.from_packet ⟨evcode, len, params⟩
      = Except.error (HciParseError.NotImplemented evcode none) := by
  have hc : HCIEventCode.fromU8 evcode = none := by
    unfold HCIEventCode.fromU8
    rw [if_neg h1, if_neg h2, if_neg h3]
  unfold HCIEvent.from_packet
  simp only [hc]

theorem C4_unknown_evcode_notimpl_witness :
    HCIEvent.from_packet ⟨0x01, 0, []⟩
      = Except.error (HciParseError.NotImplemented 0x01 none) :=
  C4_unknown_evcode_notimpl 0x01 0 [] (by decide) (by decide) (by decide)

/-- C5: for every recognized-but-unhandled LE Meta subevent code (every
`SubeventCode` other than the three handled ones), decoding an Event
packet with event code `0x3E` whose first parameter byte is that
subevent code returns `NotImplemented{evcode = 0x3E, sub_evcode = Some
code}`, for any declared length and any further parameter bytes. -/
theorem C5_unhandled_subevent_notimpl (c : SubeventCode)
    (h1 : c ≠ SubeventCode.ConnectionComplete)
    (h2 : c ≠ SubeventCode.AdvertisingReport)
    (h3 : c ≠ SubeventCode.ConnectionUpdateComplete)
    (len : Nat) (rest : List Nat) :
    HCIEvent.from_packet ⟨0x3E, len, SubeventCode.toU8 c :: rest⟩
      = Except.error (HciParseError.NotImplemented 0x3E (some (SubeventCode.toU8 c))) :=
  from_packet_sub_notimpl (SubeventCode.toU8 c) c len rest (subevent_roundtrip c) h1 h2 h3

theorem C5_unhandled_subevent_notimpl_witness :
    HCIEvent.from_packet
        ⟨0x3E, 1, [SubeventCode.toU8 SubeventCode.ReadRemoteFeaturesPage0Complete]⟩
      = Except.error (HciParseError.NotImplemented 0x3E
          (some (SubeventCode.toU8 SubeventCode.ReadRemoteFeaturesPage0Complete))) :=
  C5_unhandled_subevent_notimpl SubeventCode.ReadRemoteFeaturesPage0Complete
    (by decide) (by decide) (by decide) 1 []

/-- C8: decoding `DisconnectionComplete` (event code `0x05`) from the
parameter bytes `[0x00, 0x01, 0x00, 0x00]` with declared length 4
succeeds with `status = 0x00`, `connection_handle = 0x0001` and
`reason = 0x00` — the third wire byte exactly as given (the repository's
own unit test instead asserts `reason == 0x13`, which this evaluation
refutes; the code and the spec agree on `0x00`). -/
theorem C8_disconnection_complete_eval :
    HCIEvent.from_packet ⟨0x05, 4, [0x00, 0x01, 0x00, 0x00]⟩
      = Except.ok (HCIEvent.DisconnectionComplete
          { status := 0x00, connection_handle := 0x0001, reason := 0x00 }) := rfl

theorem getLast?_drop_of_lt (l : List Nat) (k : Nat) (h : k < l.length) :
    (l.drop k).getLast? = l.getLast? := by
  have hne : l.drop k ≠ [] := by
    intro hx
    have hl := List.length_drop k l
    rw [hx] at hl
    simp at hl
    omega
  have hsome : (l.drop k).getLast?.isSome := List.getLast?_isSome.mpr hne
  conv_rhs => rw [← List.take_append_drop k l]
  rw [List.getLast?_append]
  rcases ho : (l.drop k).getLast? with _ | x
  · rw [ho] at hsome
    simp at hsome
  · rfl

/-- C10: `Writer::write_u8_slice` succeeds exactly when
`pos + slice.len()` is strictly below the buffer length (the source's
rejection condition is `pos + slice.len() >= buf.len()`), so a write
that would exactly fill the remaining space fails with `BufferOverflow`
and leaves the buffer and position unchanged; consequently the final
byte of the buffer is never written (the last element is preserved by
every call, successful or not). -/
theorem C10_writer_overflow (w : Utils.Writer) (s : List Nat) :
    ((w.write_u8_slice s).1 = Except.ok () ↔ w.pos + s.length < w.buf.length) ∧
    (w.buf.length ≤ w.pos + s.length →
      w.write_u8_slice s = (Except.error WriteError.BufferOverflow, w)) ∧
    ((w.write_u8_slice s).2.buf.getLast? = w.buf.getLast?) := by
  unfold Utils.Writer.write_u8_slice
  split
  case isTrue hge =>
    exact ⟨⟨fun hx => by simp at hx, fun hlt2 => absurd hlt2 (by omega)⟩,
           fun _ => rfl, rfl⟩
  case isFalse hlt =>
    refine ⟨⟨fun _ => by omega, fun _ => rfl⟩,
            fun hge => absurd hge (by omega), ?_⟩
    have hlast : (w.buf.drop (w.pos + s.length)).getLast? = w.buf.getLast? :=
      getLast?_drop_of_lt w.buf (w.pos + s.length) (by omega)
    have hne : w.buf.drop (w.pos + s.length) ≠ [] := by
      intro hx
      have hl := List.length_drop (w.pos + s.length) w.buf
      rw [hx] at hl
      simp at hl
      omega
    have hsome : (w.buf.drop (w.pos + s.length)).getLast?.isSome :=
      List.getLast?_isSome.mpr hne
    rcases ho : (w.buf.drop (w.pos + s.length)).getLast? with _ | x
    · rw [ho] at hsome
      simp at hsome
    · simp only [List.getLast?_append, ho]
      rw [← hlast, ho]
      rfl

theorem C10_writer_overflow_witness :
    (((Utils.Writer.mk [7, 7, 7] 0).write_u8_slice [1, 2, 3]).1 = Except.ok ()
        ↔ 0 + 3 < 3) ∧
    (3 ≤ 0 + 3 →
      (Utils.Writer.mk [7, 7, 7] 0).write_u8_slice [1, 2, 3]
        = (Except.error WriteError.BufferOverflow, Utils.Writer.mk [7, 7, 7] 0)) ∧
    (((Utils.Writer.mk [7, 7, 7] 0).write_u8_slice [1, 2, 3]).2.buf.getLast?
        = [7, 7, 7].getLast?) := by
  have h := C10_writer_overflow (Utils.Writer.mk [7, 7, 7] 0) [1, 2, 3]
  simpa using h

/-- C7: cursor invariants for every `Reader` operation, starting from
any valid state (`pos ≤ buf.length`): the buffer is untouched and the
position never exceeds the buffer length; a successful read advances
the position by exactly the number of bytes consumed (the scalar width,
or `len` bytes for the slice reads); a failed read returns `none` and
leaves the state unchanged; a reinterpreting slice read whose byte
count is not a multiple of the target width fails; `seek` moves to the
requested position exactly when it is within bounds and leaves the
state unchanged on error. -/
theorem C7_reader_invariants (r : Reader) (len p : Nat) (h : r.pos ≤ r.buf.length) :
    ((r.read_u8).2.buf = r.buf ∧ (r.read_u8).2.pos ≤ r.buf.length ∧
      ((r.read_u8).1 = none → (r.read_u8).2 = r) ∧
      ((r.read_u8).1.isSome → (r.read_u8).2.pos = r.pos + 1)) ∧
    ((r.read_u16).2.buf = r.buf ∧ (r.read_u16).2.pos ≤ r.buf.length ∧
      ((r.read_u16).1 = none → (r.read_u16).2 = r) ∧
      ((r.read_u16).1.isSome → (r.read_u16).2.pos = r.pos + 2)) ∧
    ((r.read_u32).2.buf = r.buf ∧ (r.read_u32).2.pos ≤ r.buf.length ∧
      ((r.read_u32).1 = none → (r.read_u32).2 = r) ∧
      ((r.read_u32).1.isSome → (r.read_u32).2.pos = r.pos + 4)) ∧
    ((r.read_u64).2.buf = r.buf ∧ (r.read_u64).2.pos ≤ r.buf.length ∧
      ((r.read_u64).1 = none → (r.read_u64).2 = r) ∧
      ((r.read_u64).1.isSome → (r.read_u64).2.pos = r.pos + 8)) ∧
    ((r.read_u128).2.buf = r.buf ∧ (r.read_u128).2.pos ≤ r.buf.length ∧
      ((r.read_u128).1 = none → (r.read_u128).2 = r) ∧
      ((r.read_u128).1.isSome → (r.read_u128).2.pos = r.pos + 16)) ∧
    ((r.read_u8_slice len).2.buf = r.buf ∧
      (r.read_u8_slice len).2.pos ≤ r.buf.length ∧
      ((r.read_u8_slice len).1 = none → (r.read_u8_slice len).2 = r) ∧
      ((r.read_u8_slice len).1.isSome → (r.read_u8_slice len).2.pos = r.pos + len)) ∧
    ((r.read_u16_slice len).2.buf = r.buf ∧
      (r.read_u16_slice len).2.pos ≤ r.buf.length ∧
      ((r.read_u16_slice len).1 = none → (r.read_u16_slice len).2 = r) ∧
      ((r.read_u16_slice len).1.isSome → (r.read_u16_slice len).2.pos = r.pos + len) ∧
      (len % 2 ≠ 0 → (r.read_u16_slice len).1 = none)) ∧
    ((r.read_u32_slice len).2.buf = r.buf ∧
      (r.read_u32_slice len).2.pos ≤ r.buf.length ∧
      ((r.read_u32_slice len).1 = none → (r.read_u32_slice len).2 = r) ∧
      ((r.read_u32_slice len).1.isSome → (r.read_u32_slice len).2.pos = r.pos + len) ∧
      (len % 4 ≠ 0 → (r.read_u32_slice len).1 = none)) ∧
    ((r.read_u64_slice len).2.buf = r.buf ∧
      (r.read_u64_slice len).2.pos ≤ r.buf.length ∧
      ((r.read_u64_slice len).1 = none → (r.read_u64_slice len).2 = r) ∧
      ((r.read_u64_slice len).1.isSome → (r.read_u64_slice len).2.pos = r.pos + len) ∧
      (len % 8 ≠ 0 → (r.read_u64_slice len).1 = none)) ∧
    ((r.read_u128_slice len).2.buf = r.buf ∧
      (r.read_u128_slice len).2.pos ≤ r.buf.length ∧
      ((r.read_u128_slice len).1 = none → (r.read_u128_slice len).2 = r) ∧
      ((r.read_u128_slice len).1.isSome → (r.read_u128_slice len).2.pos = r.pos + len) ∧
      (len % 16 ≠ 0 → (r.read_u128_slice len).1 = none)) ∧
    ((r.seek p).2.buf = r.buf ∧ (r.seek p).2.pos ≤ r.buf.length ∧
      ((r.seek p).1 = Except.ok () → (r.seek p).2.pos = p) ∧
      (∀ e, (r.seek p).1 = Except.error e → (r.seek p).2 = r)) :=
  ⟨read_u8_spec r h, read_u16_spec r h, read_u32_spec r h, read_u64_spec r h,
   read_u128_spec r h, read_u8_slice_spec r len h, read_u16_slice_spec r len h,
   read_u32_slice_spec r len h, read_u64_slice_spec r len h,
   read_u128_slice_spec r len h, seek_spec r p h⟩

theorem C7_reader_invariants_witness :
    ((Reader.mk [1, 2, 3] 1).read_u16).2.buf = [1, 2, 3] ∧
    ((Reader.mk [1, 2, 3] 1).read_u16).2.pos ≤ [1, 2, 3].length ∧
    (((Reader.mk [1, 2, 3] 1).read_u16).1 = none →
      ((Reader.mk [1, 2, 3] 1).read_u16).2 = Reader.mk [1, 2, 3] 1) ∧
    (((Reader.mk [1, 2, 3] 1).read_u16).1.isSome →
      ((Reader.mk [1, 2, 3] 1).read_u16).2.pos = 1 + 2) :=
  (C7_reader_invariants (Reader.mk [1, 2, 3] 1) 2 3 (by decide)).2.1

theorem reportNext_truncated (n : Nat) (buf : List Nat) (hne : buf ≠ [])
    (hlen : buf.length < 10) :
    AdvertisingReportIterator.next ⟨n, Reader.new buf⟩ = none := by
  have h1 : 1 ≤ buf.length := by
    cases buf
    · simp at hne
    · simp
  unfold AdvertisingReportIterator.next
  simp only [Reader.new]
  rw [if_neg (by simp only [Reader.remaining]; omega)]
  obtain ⟨b1, e1⟩ := read_u8_succ_ex buf 0 (by omega)
  simp only [e1]
  by_cases h2 : buf.length < 2
  · simp only [read_u8_fail buf (0 + 1) (by omega)]
  · obtain ⟨b2, e2⟩ := read_u8_succ_ex buf (0 + 1) (by omega)
    simp only [e2]
    by_cases h8 : buf.length < 8
    · simp only [read_u8_slice_of_fail buf (0 + 1 + 1) 6 (by omega)]
    · obtain ⟨s3, e3, _⟩ := read_u8_slice_succ_ex buf (0 + 1 + 1) 6 (by omega)
      simp only [e3]
      by_cases h9 : buf.length < 9
      · simp only [read_u8_fail buf (0 + 1 + 1 + 6) (by omega)]
      · obtain ⟨b4, e4⟩ := read_u8_succ_ex buf (0 + 1 + 1 + 6) (by omega)
        simp only [e4]
        by_cases hb4 : b4 = 0
        · subst hb4
          obtain ⟨s5, e5, _⟩ :=
            read_u8_slice_succ_ex buf (0 + 1 + 1 + 6 + 1) 0 (by omega)
          simp only [e5]
          simp only [read_u8_fail buf (0 + 1 + 1 + 6 + 1 + 0) (by omega)]
        · simp only [read_u8_slice_of_fail buf (0 + 1 + 1 + 6 + 1) b4 (by omega)]

/-- C6: an `AdvertisingReportIterator` over a payload holding exactly
the well-formed records `rs` (and nothing else) yields exactly those
records and then stops, for every value of the advisory `num_reports`
field: driving it with any fuel collects `rs.take fuel` (so with fuel
`rs.length` it yields all `rs.length` items, and with any larger fuel
the extra `next` calls contribute nothing, i.e. return `none`).  The
second conjunct shows the failure mode: on any nonempty buffer too
short for even one record, `next` is `none` — in the embedding `next`
has no error outcome at all (its type is `Option`), matching "a failed
field read is end-of-sequence, not an error". -/
theorem C6_report_iterator_exact (num fuel : Nat) (rs : List AdvRecord)
    (hwf : ∀ r ∈ rs, wfRecord r) :
    collectReports ⟨num, Reader.new (encReports rs)⟩ fuel
      = (rs.take fuel).map toReport ∧
    (∀ (n : Nat) (buf : List Nat), buf ≠ [] → buf.length < 10 →
      AdvertisingReportIterator.next ⟨n, Reader.new buf⟩ = none) := by
  constructor
  · have h := collect_enc rs num fuel [] hwf
    simpa [Reader.new] using h
  · exact reportNext_truncated

theorem C6_report_iterator_exact_witness :
    collectReports
        ⟨7, Reader.new (encReports
          [{ event_type := 3, address_type := 1, address := [1, 2, 3, 4, 5, 6],
             data := [2, 1, 6], rssi := 200 },
           { event_type := 0, address_type := 0, address := [9, 8, 7, 6, 5, 4],
             data := [], rssi := 50 }])⟩ 3
      = ([{ event_type := 3, address_type := 1, address := [1, 2, 3, 4, 5, 6],
            data := [2, 1, 6], rssi := 200 },
          { event_type := 0, address_type := 0, address := [9, 8, 7, 6, 5, 4],
            data := [], rssi := 50 }].take 3).map toReport ∧
    (∀ (n : Nat) (buf : List Nat), buf ≠ [] → buf.length < 10 →
      AdvertisingReportIterator.next ⟨n, Reader.new buf⟩ = none) :=
  C6_report_iterator_exact 7 3
    [{ event_type := 3, address_type := 1, address := [1, 2, 3, 4, 5, 6],
       data := [2, 1, 6], rssi := 200 },
     { event_type := 0, address_type := 0, address := [9, 8, 7, 6, 5, 4],
       data := [], rssi := 50 }]
    (by decide)

/-- C1: the decode operations are total — in the embedding each returns
an ordinary value of `Except`/`Option` type (conjuncts 3 and 4), and at
the two suspicious sites named by the claim the release-profile `usize`
wrap (`usizeSub`) is caught by the cursor's bounds check rather than
escaping: an Advertising Data entry whose length byte is 0 makes the
iterator compute `0 - 1` and the subsequent bounded read fails, ending
iteration with `none` (conjunct 1); a `CommandComplete` packet whose
declared `len` is below the 3 header bytes already consumed makes the
decoder compute a wrapped tail length and fail with a typed error
(conjunct 2).  The side conditions `< 2 ^ 64` state that the buffers
are representable `usize`-indexed Rust slices. -/
theorem C1_decoders_total :
    (∀ (t : Nat) (rest : List Nat), rest.length < 2 ^ 64 - 1 →
      AdvertisingDataIterator.next ⟨Reader.new (0 :: t :: rest)⟩ = none) ∧
    (∀ (len : Nat) (params : List Nat), len < 3 → params.length < 2 ^ 64 →
      ∃ e, HCIEvent.from_packet ⟨0x0E, len, params⟩ = Except.error e) ∧
    (∀ it : AdvertisingReportIterator, it.next = none ∨ ∃ x, it.next = some x) ∧
    (∀ pkt : HCIEventPacket, (∃ ev, HCIEvent.from_packet pkt = Except.ok ev) ∨
      (∃ e, HCIEvent.from_packet pkt = Except.error e)) := by
  refine ⟨?_, ?_, ?_, ?_⟩
  · intro t rest hr
    have e1 := read_u8_at (0 :: t :: rest) 0 0 (t :: rest) rfl
    have e2 := read_u8_at (0 :: t :: rest) (0 + 1) t rest rfl
    have husz : usizeSub 0 1 = 0 + 2 ^ 64 - 1 :=
      usizeSub_of_lt 0 1 (by omega) (by norm_num)
    have efail := read_u8_slice_of_fail (0 :: t :: rest) (0 + 1 + 1) (usizeSub 0 1)
      (by rw [husz]; simp only [List.length_cons]; omega)
    unfold AdvertisingDataIterator.next
    rw [if_neg (by simp only [Reader.new, Reader.remaining]; simp)]
    split
    · rfl
    case h_2 L r1 heq =>
      rw [show (⟨Reader.new (0 :: t :: rest)⟩ : AdvertisingDataIterator).reader
            = (⟨0 :: t :: rest, 0⟩ : Reader) from rfl] at heq
      rw [e1] at heq
      injection heq with hA hB
      injection hA with hA
      subst hA
      subst hB
      split
      · rfl
      case h_2 tb r2 heq2 =>
        rw [e2] at heq2
        injection heq2 with hA hB
        injection hA with hA
        subst hA
        subst hB
        split
        · rfl
        case h_2 dat r3 heq3 =>
          rw [efail] at heq3
          simp at heq3
  · intro len params hlen hplen
    have hcode : HCIEventCode.fromU8 0x0E = some HCIEventCode.CommandComplete := by
      decide
    unfold HCIEvent.from_packet
    simp only [Reader.new, hcode]
    rcases params with _ | ⟨a, _ | ⟨b, _ | ⟨c, t⟩⟩⟩
    · exact ⟨_, rfl⟩
    · exact ⟨_, rfl⟩
    · exact ⟨_, rfl⟩
    · have efail := read_u8_slice_of_fail (a :: b :: c :: t) (0 + 1 + 2)
          (usizeSub len (0 + 1 + 2)) (by
        have h3 : (0 + 1 + 2 : Nat) = 3 := rfl
        rw [h3, usizeSub_of_lt len 3 hlen (by norm_num)]
        simp only [List.length_cons] at hplen ⊢
        omega)
      split
      · exact ⟨_, rfl⟩
      case h_2 nump r1 heq =>
        rw [read_u8_at (a :: b :: c :: t) 0 a (b :: c :: t) rfl] at heq
        injection heq with hA hB
        injection hA with hA
        subst hA
        subst hB
        split
        · exact ⟨_, rfl⟩
        case h_2 opc r2 heq2 =>
          rw [read_u16_at (a :: b :: c :: t) (0 + 1) b c t rfl] at heq2
          injection heq2 with hA hB
          injection hA with hA
          subst hA
          subst hB
          split
          · exact ⟨_, rfl⟩
          case h_2 rp r3 heq3 =>
            dsimp only at heq3
            rw [efail] at heq3
            simp at heq3
  · intro it
    rcases hx : it.next with _ | x
    · exact Or.inl rfl
    · exact Or.inr ⟨x, rfl⟩
  · intro pkt
    rcases hx : HCIEvent.from_packet pkt with e | ev
    · exact Or.inr ⟨e, rfl⟩
    · exact Or.inl ⟨ev, rfl⟩

theorem C1_decoders_total_witness :
    AdvertisingDataIterator.next ⟨Reader.new [0, 1]⟩ = none ∧
    ∃ e, HCIEvent.from_packet ⟨0x0E, 2, [9, 9, 9]⟩ = Except.error e :=
  ⟨C1_decoders_total.1 1 [] (by norm_num),
   C1_decoders_total.2.1 2 [9, 9, 9] (by norm_num) (by norm_num)⟩

theorem from_buf_other (b : Nat) (t : List Nat) (h1 : b ≠ 1) (h2 : b ≠ 2)
    (h4 : b ≠ 4) :
    HCIPacket.from_buf (b :: t) = PanicOr.ret (some (HCIPacket.Unkown (b :: t))) := by
  have e1 : Reader.read_u8 (Reader.new (b :: t)) = (some b, ⟨b :: t, 0 + 1⟩) :=
    read_u8_at (b :: t) 0 b t rfl
  unfold HCIPacket.from_buf
  split
  case h_1 x heq =>
    rw [e1] at heq
    simp at heq
  case h_2 pt r0 heq =>
    rw [e1] at heq
    injection heq with hA hB
    injection hA with hA
    subst hA
    subst hB
    rw [if_neg h1, if_neg h2]
    by_cases h3 : b = 3
    · rw [if_pos h3]
    · rw [if_neg h3, if_neg h4]
      by_cases h5 : b = 5
      · rw [if_pos h5]
      · rw [if_neg h5]

theorem from_buf_command_ok (x1 x2 x3 : Nat) (t : List Nat) (h : x3 ≤ t.length) :
    HCIPacket.from_buf (1 :: x1 :: x2 :: x3 :: t)
      = PanicOr.ret (some (HCIPacket.Command
          { opcode := x1 + 256 * x2, len := x3, parameters := t.take x3 })) := by
  have e1 : Reader.read_u8 (Reader.new (1 :: x1 :: x2 :: x3 :: t))
      = (some 1, ⟨1 :: x1 :: x2 :: x3 :: t, 0 + 1⟩) :=
    read_u8_at _ 0 1 _ rfl
  have e2 := read_u16_at (1 :: x1 :: x2 :: x3 :: t) (0 + 1) x1 x2 (x3 :: t) rfl
  have e3 := read_u8_at (1 :: x1 :: x2 :: x3 :: t) (0 + 1 + 2) x3 t rfl
  have e4 := read_u8_slice_of_le (1 :: x1 :: x2 :: x3 :: t) (0 + 1 + 2 + 1) x3
    (by simp only [List.length_cons]; omega)
  unfold HCIPacket.from_buf
  split
  case h_1 x heq =>
    rw [e1] at heq
    simp at heq
  case h_2 pt r0 heq =>
    rw [e1] at heq
    injection heq with hA hB
    injection hA with hA
    subst hA
    subst hB
    rw [if_pos rfl]
    split
    case h_1 x heq2 =>
      rw [e2] at heq2
      simp at heq2
    case h_2 opc r1 heq2 =>
      rw [e2] at heq2
      injection heq2 with hA hB
      injection hA with hA
      subst hA
      subst hB
      split
      case h_1 x heq3 =>
        rw [e3] at heq3
        simp at heq3
      case h_2 L r2 heq3 =>
        rw [e3] at heq3
        injection heq3 with hA hB
        injection hA with hA
        subst hA
        subst hB
        split
        case h_1 x heq4 =>
          rw [e4] at heq4
          simp at heq4
        case h_2 dat r3 heq4 =>
          rw [e4] at heq4
          injection heq4 with hA hB
          injection hA with hA
          subst hA
          subst hB
          have hdrop : (1 :: x1 :: x2 :: x3 :: t).drop (0 + 1 + 2 + 1) = t := rfl
          rw [hdrop]
          have hnew : HCICommandPacket.new (x1 + 256 * x2) x3 (t.take x3)
              = PanicOr.ret ⟨x1 + 256 * x2, x3, (t.take x3).take x3⟩ := by
            unfold HCICommandPacket.new
            rw [if_pos (by simp only [List.length_take]; omega)]
          rw [hnew]
          simp [List.take_take]

theorem from_buf_command_short (x1 x2 x3 : Nat) (t : List Nat) (h : t.length < x3) :
    HCIPacket.from_buf (1 :: x1 :: x2 :: x3 :: t) = PanicOr.ret none := by
  have e1 : Reader.read_u8 (Reader.new (1 :: x1 :: x2 :: x3 :: t))
      = (some 1, ⟨1 :: x1 :: x2 :: x3 :: t, 0 + 1⟩) :=
    read_u8_at _ 0 1 _ rfl
  have e2 := read_u16_at (1 :: x1 :: x2 :: x3 :: t) (0 + 1) x1 x2 (x3 :: t) rfl
  have e3 := read_u8_at (1 :: x1 :: x2 :: x3 :: t) (0 + 1 + 2) x3 t rfl
  have e4 := read_u8_slice_of_fail (1 :: x1 :: x2 :: x3 :: t) (0 + 1 + 2 + 1) x3
    (by simp only [List.length_cons]; omega)
  unfold HCIPacket.from_buf
  split
  case h_1 x heq => rfl
  case h_2 pt r0 heq =>
    rw [e1] at heq
    injection heq with hA hB
    injection hA with hA
    subst hA
    subst hB
    rw [if_pos rfl]
    split
    case h_1 x heq2 => rfl
    case h_2 opc r1 heq2 =>
      rw [e2] at heq2
      injection heq2 with hA hB
      injection hA with hA
      subst hA
      subst hB
      split
      case h_1 x heq3 => rfl
      case h_2 L r2 heq3 =>
        rw [e3] at heq3
        injection heq3 with hA hB
        injection hA with hA
        subst hA
        subst hB
        split
        case h_1 x heq4 => rfl
        case h_2 dat r3 heq4 =>
          rw [e4] at heq4
          simp at heq4

theorem from_buf_event_ok (ev L : Nat) (t : List Nat) (h : L ≤ t.length) :
    HCIPacket.from_buf (4 :: ev :: L :: t)
      = PanicOr.ret (some (HCIPacket.Event
          { evcode := ev, len := L, parameters := t.take L })) := by
  have e1 : Reader.read_u8 (Reader.new (4 :: ev :: L :: t))
      = (some 4, ⟨4 :: ev :: L :: t, 0 + 1⟩) := read_u8_at _ 0 4 _ rfl
  have e2 := read_u8_at (4 :: ev :: L :: t) (0 + 1) ev (L :: t) rfl
  have e3 := read_u8_at (4 :: ev :: L :: t) (0 + 1 + 1) L t rfl
  have e4 := read_u8_slice_of_le (4 :: ev :: L :: t) (0 + 1 + 1 + 1) L
    (by simp only [List.length_cons]; omega)
  unfold HCIPacket.from_buf
  split
  case h_1 x heq =>
    rw [e1] at heq
    simp at heq
  case h_2 pt r0 heq =>
    rw [e1] at heq
    injection heq with hA hB
    injection hA with hA
    subst hA
    subst hB
    rw [if_neg (show (4 : Nat) ≠ 0x01 by decide),
        if_neg (show (4 : Nat) ≠ 0x02 by decide),
        if_neg (show (4 : Nat) ≠ 0x03 by decide), if_pos rfl]
    split
    case h_1 x heq2 =>
      rw [e2] at heq2
      simp at heq2
    case h_2 evc r1 heq2 =>
      rw [e2] at heq2
      injection heq2 with hA hB
      injection hA with hA
      subst hA
      subst hB
      split
      case h_1 x heq3 =>
        rw [e3] at heq3
        simp at heq3
      case h_2 L2 r2 heq3 =>
        rw [e3] at heq3
        injection heq3 with hA hB
        injection hA with hA
        subst hA
        subst hB
        split
        case h_1 x heq4 =>
          rw [e4] at heq4
          simp at heq4
        case h_2 dat r3 heq4 =>
          rw [e4] at heq4
          injection heq4 with hA hB
          injection hA with hA
          subst hA
          subst hB
          have hdrop : (4 :: ev :: L :: t).drop (0 + 1 + 1 + 1) = t := rfl
          rw [hdrop]
          have hnew : HCIEventPacket.new ev L (t.take L)
              = PanicOr.ret ⟨ev, L, (t.take L).take L⟩ := by
            unfold HCIEventPacket.new
            rw [if_pos (by simp only [List.length_take]; omega)]
          rw [hnew]
          simp [List.take_take]

theorem from_buf_event_short (ev L : Nat) (t : List Nat) (h : t.length < L) :
    HCIPacket.from_buf (4 :: ev :: L :: t) = PanicOr.ret none := by
  have e1 : Reader.read_u8 (Reader.new (4 :: ev :: L :: t))
      = (some 4, ⟨4 :: ev :: L :: t, 0 + 1⟩) := read_u8_at _ 0 4 _ rfl
  have e2 := read_u8_at (4 :: ev :: L :: t) (0 + 1) ev (L :: t) rfl
  have e3 := read_u8_at (4 :: ev :: L :: t) (0 + 1 + 1) L t rfl
  have e4 := read_u8_slice_of_fail (4 :: ev :: L :: t) (0 + 1 + 1 + 1) L
    (by simp only [List.length_cons]; omega)
  unfold HCIPacket.from_buf
  split
  case h_1 x heq => rfl
  case h_2 pt r0 heq =>
    rw [e1] at heq
    injection heq with hA hB
    injection hA with hA
    subst hA
    subst hB
    rw [if_neg (show (4 : Nat) ≠ 0x01 by decide),
        if_neg (show (4 : Nat) ≠ 0x02 by decide),
        if_neg (show (4 : Nat) ≠ 0x03 by decide), if_pos rfl]
    split
    case h_1 x heq2 => rfl
    case h_2 evc r1 heq2 =>
      rw [e2] at heq2
      injection heq2 with hA hB
      injection hA with hA
      subst hA
      subst hB
      split
      case h_1 x heq3 => rfl
      case h_2 L2 r2 heq3 =>
        rw [e3] at heq3
        injection heq3 with hA hB
        injection hA with hA
        subst hA
        subst hB
        split
        case h_1 x heq4 => rfl
        case h_2 dat r3 heq4 =>
          rw [e4] at heq4
          simp at heq4

theorem from_buf_acl_ok (x1 x2 x3 x4 : Nat) (t : List Nat)
    (h : x3 + 256 * x4 ≤ t.length) :
    HCIPacket.from_buf (2 :: x1 :: x2 :: x3 :: x4 :: t)
      = PanicOr.ret (some (HCIPacket.ACLData
          { handle := ((x1 + 256 * x2) &&& 0b1111111111110000) >>> 4,
            packet_boundary_flag :=
              (((x1 + 256 * x2) &&& 0b0000000000001111) &&& 0b00001100) >>> 2,
            broadcast_flag := ((x1 + 256 * x2) &&& 0b0000000000001111) &&& 0b00000011,
            len := x3 + 256 * x4,
            data := t.take (x3 + 256 * x4) })) := by
  have e1 : Reader.read_u8 (Reader.new (2 :: x1 :: x2 :: x3 :: x4 :: t))
      = (some 2, ⟨2 :: x1 :: x2 :: x3 :: x4 :: t, 0 + 1⟩) := read_u8_at _ 0 2 _ rfl
  have e2 := read_u16_at (2 :: x1 :: x2 :: x3 :: x4 :: t) (0 + 1) x1 x2 (x3 :: x4 :: t) rfl
  have e3 := read_u16_at (2 :: x1 :: x2 :: x3 :: x4 :: t) (0 + 1 + 2) x3 x4 t rfl
  have e4 := read_u8_slice_of_le (2 :: x1 :: x2 :: x3 :: x4 :: t) (0 + 1 + 2 + 2)
    (x3 + 256 * x4) (by simp only [List.length_cons]; omega)
  unfold HCIPacket.from_buf
  split
  case h_1 x heq =>
    rw [e1] at heq
    simp at heq
  case h_2 pt r0 heq =>
    rw [e1] at heq
    injection heq with hA hB
    injection hA with hA
    subst hA
    subst hB
    rw [if_neg (show (2 : Nat) ≠ 0x01 by decide), if_pos rfl]
    split
    case h_1 x heq2 =>
      rw [e2] at heq2
      simp at heq2
    case h_2 hdr r1 heq2 =>
      rw [e2] at heq2
      injection heq2 with hA hB
      injection hA with hA
      subst hA
      subst hB
      split
      case h_1 x heq3 =>
        rw [e3] at heq3
        simp at heq3
      case h_2 L2 r2 heq3 =>
        rw [e3] at heq3
        injection heq3 with hA hB
        injection hA with hA
        subst hA
        subst hB
        split
        case h_1 x heq4 =>
          rw [e4] at heq4
          simp at heq4
        case h_2 dat r3 heq4 =>
          rw [e4] at heq4
          injection heq4 with hA hB
          injection hA with hA
          subst hA
          subst hB
          have hdrop : (2 :: x1 :: x2 :: x3 :: x4 :: t).drop (0 + 1 + 2 + 2) = t := rfl
          rw [hdrop]
          dsimp only
          have hnew : HCIACLDataPacket.new
              (((x1 + 256 * x2) &&& 0b1111111111110000) >>> 4)
              ((((x1 + 256 * x2) &&& 0b0000000000001111) &&& 0b00001100) >>> 2)
              (((x1 + 256 * x2) &&& 0b0000000000001111) &&& 0b00000011)
              (x3 + 256 * x4) (t.take (x3 + 256 * x4))
              = PanicOr.ret ⟨((x1 + 256 * x2) &&& 0b1111111111110000) >>> 4,
                  (((x1 + 256 * x2) &&& 0b0000000000001111) &&& 0b00001100) >>> 2,
                  ((x1 + 256 * x2) &&& 0b0000000000001111) &&& 0b00000011,
                  x3 + 256 * x4, (t.take (x3 + 256 * x4)).take (x3 + 256 * x4)⟩ := by
            unfold HCIACLDataPacket.new
            rw [if_pos (by simp only [List.length_take]; omega)]
          rw [hnew]
          simp [List.take_take]

theorem from_buf_acl_short (x1 x2 x3 x4 : Nat) (t : List Nat)
    (h : t.length < x3 + 256 * x4) :
    HCIPacket.from_buf (2 :: x1 :: x2 :: x3 :: x4 :: t) = PanicOr.ret none := by
  have e1 : Reader.read_u8 (Reader.new (2 :: x1 :: x2 :: x3 :: x4 :: t))
      = (some 2, ⟨2 :: x1 :: x2 :: x3 :: x4 :: t, 0 + 1⟩) := read_u8_at _ 0 2 _ rfl
  have e2 := read_u16_at (2 :: x1 :: x2 :: x3 :: x4 :: t) (0 + 1) x1 x2 (x3 :: x4 :: t) rfl
  have e3 := read_u16_at (2 :: x1 :: x2 :: x3 :: x4 :: t) (0 + 1 + 2) x3 x4 t rfl
  have e4 := read_u8_slice_of_fail (2 :: x1 :: x2 :: x3 :: x4 :: t) (0 + 1 + 2 + 2)
    (x3 + 256 * x4) (by simp only [List.length_cons]; omega)
  unfold HCIPacket.from_buf
  split
  case h_1 x heq => rfl
  case h_2 pt r0 heq =>
    rw [e1] at heq
    injection heq with hA hB
    injection hA with hA
    subst hA
    subst hB
    rw [if_neg (show (2 : Nat) ≠ 0x01 by decide), if_pos rfl]
    split
    case h_1 x heq2 => rfl
    case h_2 hdr r1 heq2 =>
      rw [e2] at heq2
      injection heq2 with hA hB
      injection hA with hA
      subst hA
      subst hB
      split
      case h_1 x heq3 => rfl
      case h_2 L2 r2 heq3 =>
        rw [e3] at heq3
        injection heq3 with hA hB
        injection hA with hA
        subst hA
        subst hB
        split
        case h_1 x heq4 => rfl
        case h_2 dat r3 heq4 =>
          rw [e4] at heq4
          simp at heq4

/-- C9: `HCIPacket::from_buf` never reaches the constructors' slice
indexing out of bounds (the embedding returns `PanicOr.ret`, never
`PanicOr.panics`, on every input), and every packet it returns is
well-shaped: a `Command` or `Event` variant's parameters slice has
length exactly its `len` field and equals the `len` bytes following the
header in the input (header sizes 4 and 3 bytes including the type
tag), and an `ACLData` variant's data slice has length exactly its
`len` field. -/
theorem C9_from_buf_shapes (buf : List Nat) :
    ∃ res, HCIPacket.from_buf buf = PanicOr.ret res ∧
      (∀ p, res = some (HCIPacket.Command p) →
          p.parameters.length = p.len ∧ p.parameters = (buf.drop 4).take p.len) ∧
      (∀ p, res = some (HCIPacket.Event p) →
          p.parameters.length = p.len ∧ p.parameters = (buf.drop 3).take p.len) ∧
      (∀ p, res = some (HCIPacket.ACLData p) → p.data.length = p.len) := by
  rcases buf with _ | ⟨b, t⟩
  · exact ⟨none, rfl, fun p hp => by simp at hp, fun p hp => by simp at hp,
      fun p hp => by simp at hp⟩
  by_cases hb1 : b = 1
  · subst hb1
    rcases t with _ | ⟨x1, _ | ⟨x2, _ | ⟨x3, t3⟩⟩⟩
    · exact ⟨none, rfl, fun p hp => by simp at hp, fun p hp => by simp at hp,
        fun p hp => by simp at hp⟩
    · exact ⟨none, rfl, fun p hp => by simp at hp, fun p hp => by simp at hp,
        fun p hp => by simp at hp⟩
    · exact ⟨none, rfl, fun p hp => by simp at hp, fun p hp => by simp at hp,
        fun p hp => by simp at hp⟩
    · by_cases hx : x3 ≤ t3.length
      · refine ⟨some (HCIPacket.Command
            { opcode := x1 + 256 * x2, len := x3, parameters := t3.take x3 }),
          from_buf_command_ok x1 x2 x3 t3 hx, ?_,
          fun p hp => by simp at hp, fun p hp => by simp at hp⟩
        intro p hp
        injection hp with hp
        injection hp with hp
        subst hp
        refine ⟨by simp only [List.length_take]; omega, ?_⟩
        rfl
      · exact ⟨none, from_buf_command_short x1 x2 x3 t3 (by omega),
          fun p hp => by simp at hp, fun p hp => by simp at hp,
          fun p hp => by simp at hp⟩
  by_cases hb2 : b = 2
  · subst hb2
    rcases t with _ | ⟨x1, _ | ⟨x2, _ | ⟨x3, _ | ⟨x4, t4⟩⟩⟩⟩
    · exact ⟨none, rfl, fun p hp => by simp at hp, fun p hp => by simp at hp,
        fun p hp => by simp at hp⟩
    · exact ⟨none, rfl, fun p hp => by simp at hp, fun p hp => by simp at hp,
        fun p hp => by simp at hp⟩
    · exact ⟨none, rfl, fun p hp => by simp at hp, fun p hp => by simp at hp,
        fun p hp => by simp at hp⟩
    · exact ⟨none, rfl, fun p hp => by simp at hp, fun p hp => by simp at hp,
        fun p hp => by simp at hp⟩
    · by_cases hx : x3 + 256 * x4 ≤ t4.length
      · refine ⟨some (HCIPacket.ACLData
            { handle := ((x1 + 256 * x2) &&& 0b1111111111110000) >>> 4,
              packet_boundary_flag :=
                (((x1 + 256 * x2) &&& 0b0000000000001111) &&& 0b00001100) >>> 2,
              broadcast_flag := ((x1 + 256 * x2) &&& 0b0000000000001111) &&& 0b00000011,
              len := x3 + 256 * x4,
              data := t4.take (x3 + 256 * x4) }),
          from_buf_acl_ok x1 x2 x3 x4 t4 hx,
          fun p hp => by simp at hp, fun p hp => by simp at hp, ?_⟩
        intro p hp
        injection hp with hp
        injection hp with hp
        subst hp
        simp only [List.length_take]
        omega
      · exact ⟨none, from_buf_acl_short x1 x2 x3 x4 t4 (by omega),
          fun p hp => by simp at hp, fun p hp => by simp at hp,
          fun p hp => by simp at hp⟩
  by_cases hb4 : b = 4
  · subst hb4
    rcases t with _ | ⟨ev, _ | ⟨L, t2⟩⟩
    · exact ⟨none, rfl, fun p hp => by simp at hp, fun p hp => by simp at hp,
        fun p hp => by simp at hp⟩
    · exact ⟨none, rfl, fun p hp => by simp at hp, fun p hp => by simp at hp,
        fun p hp => by simp at hp⟩
    · by_cases hx : L ≤ t2.length
      · refine ⟨some (HCIPacket.Event { evcode := ev, len := L, parameters := t2.take L }),
          from_buf_event_ok ev L t2 hx,
          fun p hp => by simp at hp, ?_, fun p hp => by simp at hp⟩
        intro p hp
        injection hp with hp
        injection hp with hp
        subst hp
        refine ⟨by simp only [List.length_take]; omega, ?_⟩
        rfl
      · exact ⟨none, from_buf_event_short ev L t2 (by omega),
          fun p hp => by simp at hp, fun p hp => by simp at hp,
          fun p hp => by simp at hp⟩
  · exact ⟨some (HCIPacket.Unkown (b :: t)), from_buf_other b t hb1 hb2 hb4,
      fun p hp => by simp at hp, fun p hp => by simp at hp,
      fun p hp => by simp at hp⟩

theorem C9_from_buf_shapes_witness :
    ∃ res, HCIPacket.from_buf [4, 14, 2, 9, 9] = PanicOr.ret res ∧
      (∀ p, res = some (HCIPacket.Command p) →
          p.parameters.length = p.len ∧
          p.parameters = (([4, 14, 2, 9, 9] : List Nat).drop 4).take p.len) ∧
      (∀ p, res = some (HCIPacket.Event p) →
          p.parameters.length = p.len ∧
          p.parameters = (([4, 14, 2, 9, 9] : List Nat).drop 3).take p.len) ∧
      (∀ p, res = some (HCIPacket.ACLData p) → p.data.length = p.len) :=
  C9_from_buf_shapes [4, 14, 2, 9, 9]
